import Mathlib

/-!
Shallow embedding of the membalance daemon memory scheduler
(src/membalance/sched.cpp, domain.cpp) in Lean 4.

Modelling conventions:
  * C `long` and `unsigned long` values (memory sizes in KB, rates in KB/s,
    tick counters) are embedded as `ℤ`.  All quantities handled by the
    scheduler are small enough that no 64-bit wrap-around is exercised on
    the paths treated here; unsigned tick arithmetic is used by the source
    only on differences `sched_tick - earlier_tick` that are nonnegative.
  * C `double` values (forces, fractions, percentages) are embedded as `ℚ`;
    the source only adds, multiplies, divides and compares doubles on these
    paths, and the values involved are far from the binary64 precision
    limits, so rational arithmetic is the intended real-number semantics.
  * `fatal_msg` (which aborts the process) is embedded as `Option.none`.
  * The domain registry is embedded as a list of `domain_info` records; the
    C code holds domains in a map and passes pointers around in vectors, so
    vectors of pointers are embedded as lists of `domain_id` values indexed
    into the list of records.
-/

namespace Membalance

/-- C macro roundup(n, r) = (((n) + (r) - 1) / (r)) * (r) from membalanced.h,
using C truncating division (operands on all treated paths are nonnegative). -/
def roundup (n r : ℤ) : ℤ := ((n + r - 1).tdiv r) * r

/-- C macro rounddown(n, r) = ((n) / (r)) * (r) from membalanced.h. -/
def rounddown (n r : ℤ) : ℤ := (n.tdiv r) * r

/-- C cast (long) of a double: truncation toward zero. -/
def dbl2long (q : ℚ) : ℤ := if q < 0 then -⌊-q⌋ else ⌊q⌋

/-- rate_record from domain_info.h: one (tick, rate) sample of rate history. -/
structure rate_record where
  tick : ℤ
  rate : ℤ
deriving DecidableEq, Repr

/-- balside_t from domain_info.h. -/
inductive balside_t where
  | NEUTRAL
  | EXPANDING
  | SHRINKING
deriving DecidableEq, Repr

/-- The fields of class domain_info (domain_info.h) used by the memory
scheduler and by settings resolution.  Fields of the C object that only
serve pending-state bookkeeping, xenstore strings and logging are omitted.
The xcinfo flags consulted by the scheduler are carried as three booleans. -/
structure domain_info where
  domain_id : ℤ
  /- settings read from xenstore -/
  xs_mem_max : ℤ
  xs_mem_target : ℤ
  xs_mem_videoram : ℤ
  /- settings read from the Xen domain build config; -1 = undefined -/
  ctrl_modes_allowed : ℤ
  xc_memory : ℤ
  xc_dmem_max : ℤ
  xc_dmem_quota : ℤ
  xc_dmem_min : ℤ
  xc_dmem_incr : ℚ
  xc_dmem_decr : ℚ
  xc_rate_high : ℤ
  xc_rate_low : ℤ
  xc_rate_zero : ℤ
  xc_guest_free_threshold : ℚ
  xc_startup_time : ℤ
  xc_trim_unresponsive : ℤ
  xc_trim_unmanaged : ℤ            -- tribool: 0 no, 1 yes, -1 maybe
  /- active settings after resolve_settings -/
  dmem_max : ℤ
  dmem_quota : ℤ
  dmem_min : ℤ
  dmem_incr : ℚ
  dmem_decr : ℚ
  rate_high : ℤ
  rate_low : ℤ
  rate_zero : ℤ
  guest_free_threshold : ℚ
  startup_time : ℤ
  trim_unresponsive : ℤ
  trim_unmanaged : Bool
  xen_data_size : ℤ
  /- scheduler fields with life scope across ticks -/
  last_report_tick : ℤ
  no_report_time : ℤ
  rate_history : List rate_record
  time_rate_below_low : ℤ
  time_rate_below_high : ℤ
  last_expand_tick : ℤ
  preshrink : ℤ
  preshrink_tick : ℤ
  /- scheduler fields with life scope within one tick -/
  flag_dying : Bool                -- xcinfo->flags & XEN_DOMINF_dying
  flag_shutdown : Bool             -- xcinfo->flags & XEN_DOMINF_shutdown
  flag_paused : Bool               -- xcinfo->flags & XEN_DOMINF_paused
  valid_data : Bool
  valid_memory_data : Bool
  trimming_to_quota : Bool
  balside : balside_t
  rate : ℤ
  freepct : ℚ
  fast_rate : ℤ
  slow_rate : ℤ
  memgoal0 : ℤ
  memsize0 : ℤ
  memsize : ℤ
  memsize_incr : ℤ
  memsize_decr : ℤ
  expand_force : ℚ
  resist_force : ℚ
  expand_force0 : ℚ

/-- Global configuration (config_def.h / membalanced.h): the parameters
consulted on the scheduler paths, with their isval_ tri-state reduced to a
boolean "has a usable value" where resolve_settings queries it.  The host
allocation quant memquant_kbs (a process global in the source, the Xen page
size in KB) is carried here as well. -/
structure membalance_config where
  interval : ℤ
  host_reserved_hard : ℤ
  host_reserved_soft : ℤ
  shrink_protection_time : ℤ
  domain_freemem_timeout : ℤ
  isval_dmem_incr : Bool
  dmem_incr : ℚ
  isval_dmem_decr : Bool
  dmem_decr : ℚ
  isval_rate_high : Bool
  rate_high : ℤ
  isval_rate_low : Bool
  rate_low : ℤ
  isval_rate_zero : Bool
  rate_zero : ℤ
  isval_guest_free_threshold : Bool
  guest_free_threshold : ℚ
  isval_startup_time : Bool
  startup_time : ℤ
  isval_trim_unresponsive : Bool
  trim_unresponsive : ℤ
  isval_trim_unmanaged : Bool
  trim_unmanaged : Bool
  memquant_kbs : ℤ

/-- Check if domain is in regular runnable state (sched.cpp runnable):
not dying, not shutdown, not paused.  The disabled else-if branch of the
source (checking blocked/running) is dead code and is not modelled. -/
def runnable (d : domain_info) : Bool :=
  !(d.flag_dying || d.flag_shutdown || d.flag_paused)

/-! ## Rate smoothing: domain_info::weight_samples and calc_rates -/

/-- The slow-rate sample weights of domain_info::calc_rates. -/
def slow_weights : List ℚ := [10, 3, 2, 2, 1]

/-- Loop body of domain_info::weight_samples (sched.cpp).  The C for-loop
variable k is advanced by `k += gap` inside the body when a one-tick gap
occurs, which both selects a later weight slot and skips a history element;
the embedding reproduces this literally.  `none` embeds the fatal_msg call
on a negative gap (history ticks not strictly decreasing). -/
def weight_samples_loop (hist : List rate_record) (weights : List ℚ)
    (nel : ℕ) (k : ℕ) (prev_tick : ℤ) (sum_weight sum_rate : ℚ) :
    Option (ℚ × ℚ) :=
  if k < nel then
    let rr := hist.getD k ⟨0, 0⟩
    if k ≠ 0 then
      let gap : ℤ := prev_tick - rr.tick - 1
      if gap < 0 then
        none
      else if gap > 1 then
        some (sum_weight, sum_rate)
      else
        let k2 := k + gap.toNat
        if nel ≤ k2 then
          some (sum_weight, sum_rate)
        else
          weight_samples_loop hist weights nel (k2 + 1) rr.tick
            (sum_weight + weights.getD k2 0)
            (sum_rate + (rr.rate : ℚ) * weights.getD k2 0)
    else
      weight_samples_loop hist weights nel (k + 1) rr.tick
        (sum_weight + weights.getD k 0)
        (sum_rate + (rr.rate : ℚ) * weights.getD k 0)
  else
    some (sum_weight, sum_rate)
termination_by nel - k

/-- domain_info::weight_samples (sched.cpp): weighted moving average over
the rate history, stopping at a breach of more than one missing sample.
On the empty history the source computes 0/0 in doubles; that corner is
never reached from calc_rates (which inserts a sample first); in ℚ the
division yields 0. -/
def weight_samples (hist : List rate_record) (weights : List ℚ) : Option ℚ :=
  (weight_samples_loop hist weights (min weights.length hist.length)
      0 0 0 0).map
    (fun p => p.2 / p.1)

/-- domain_info::calc_rates (sched.cpp): push the current rate reading onto
the history (bounded by the number of slow weights, i.e. 5), set fast_rate
to the current sample and slow_rate to the max of the current sample and
the truncated weighted history average. -/
def calc_rates (d : domain_info) (tick : ℤ) : Option domain_info :=
  let hist := (List.cons ⟨tick, d.rate⟩ d.rate_history).take slow_weights.length
  (weight_samples hist slow_weights).map
    (fun w => { d with
                  rate_history := hist
                  fast_rate := d.rate
                  slow_rate := max d.rate (dbl2long w) })

/-- The fresh-report branch of stage_collect_data (sched.cpp lines
1325-1366) for one managed domain: record the report tick, apply the
guest-free-threshold and rate-zero overrides to the parsed rate, compute
the moving averages and update the below-low/below-high accumulators.
`kbsec` and `fpct` are the values parse_domain_report stored into
dom->rate and dom->freepct. -/
def stage_collect_report (cfg : membalance_config) (tick : ℤ)
    (kbsec : ℤ) (fpct : ℚ) (d : domain_info) : Option domain_info :=
  let d := { d with rate := kbsec, freepct := fpct,
                    no_report_time := 0, last_report_tick := tick }
  let d := if d.freepct > cfg.guest_free_threshold * 100
           then { d with rate := 0 } else d
  let d := if d.rate ≤ d.rate_zero then { d with rate := 0 } else d
  (calc_rates d tick).map (fun d =>
    let d := if d.slow_rate ≤ d.rate_low
             then { d with time_rate_below_low :=
                             d.time_rate_below_low + cfg.interval }
             else { d with time_rate_below_low := 0 }
    let d := if d.fast_rate < d.rate_high
             then { d with time_rate_below_high :=
                             d.time_rate_below_high + cfg.interval }
             else { d with time_rate_below_high := 0 }
    d)

/-! ## Helper lemmas about the numeric embedding -/

lemma dbl2long_intCast (n : ℤ) : dbl2long (n : ℚ) = n := by
  unfold dbl2long
  split
  · rw [← Int.cast_neg, Int.floor_intCast, neg_neg]
  · rw [Int.floor_intCast]

/-- Sum of the weight slots consumed by weight_samples_loop when it runs
from index k to nel without interruption. -/
def wsum (weights : List ℚ) (nel k : ℕ) : ℚ := ((weights.take nel).drop k).sum

lemma wsum_succ (weights : List ℚ) (nel k : ℕ) (hk : k < nel)
    (hnel : nel ≤ weights.length) :
    wsum weights nel k = weights.getD k 0 + wsum weights nel (k + 1) := by
  have hkw : k < weights.length := lt_of_lt_of_le hk hnel
  have hk' : k < (weights.take nel).length := by
    simp only [List.length_take]
    omega
  rw [wsum, wsum, List.drop_eq_getElem_cons hk', List.sum_cons,
    List.getElem_take, List.getD_eq_getElem]

lemma wsum_end (weights : List ℚ) (nel : ℕ) :
    wsum weights nel nel = 0 := by
  have : nel ≥ (weights.take nel).length := by
    simp [List.length_take]
  rw [wsum, List.drop_eq_nil_of_le this, List.sum_nil]

/-- Behaviour of weight_samples_loop on a history of consecutive samples
(ticks t0, t0-1, t0-2, ...) of uniform rate R: the loop accumulates all
weight slots from k through nel-1 with no gap adjustment. -/
lemma weight_samples_loop_const (hist : List rate_record) (weights : List ℚ)
    (t0 R : ℤ) (nel : ℕ)
    (hn1 : nel ≤ hist.length) (hn2 : nel ≤ weights.length)
    (hconst : ∀ i (h : i < hist.length), hist.get ⟨i, h⟩ = ⟨t0 - i, R⟩) :
    ∀ n k prev sumW sumR, n = nel - k → k ≤ nel →
      (k ≠ 0 → prev = t0 - k + 1) →
      weight_samples_loop hist weights nel k prev sumW sumR =
        some (sumW + wsum weights nel k, sumR + R * wsum weights nel k) := by
  intro n
  induction n using Nat.strong_induction_on with
  | _ n ih =>
    intro k prev sumW sumR hn hk hprev
    by_cases hklt : k < nel
    · have hkh : k < hist.length := lt_of_lt_of_le hklt hn1
      have hrr : hist.getD k ⟨0, 0⟩ = ⟨t0 - k, R⟩ := by
        rw [List.getD_eq_getElem _ _ hkh]
        have := hconst k hkh
        simpa using this
      rw [weight_samples_loop, if_pos hklt]
      by_cases hk0 : k = 0
      · subst hk0
        simp only [hrr, ne_eq, not_true_eq_false, if_false, ite_false,
          Nat.cast_zero, sub_zero, zero_add]
        have hstep := ih (nel - 1) (by omega) 1 t0
          (sumW + weights.getD 0 0) (sumR + (R : ℚ) * weights.getD 0 0)
          (by omega) (by omega) (fun _ => by push_cast; ring)
        rw [hstep]
        simp only [Option.some.injEq, Prod.mk.injEq,
          wsum_succ weights nel 0 hklt hn2]
        constructor <;> ring
      · have hpv : prev = t0 - k + 1 := hprev hk0
        have hgap : prev - (t0 - (k : ℤ)) - 1 = 0 := by rw [hpv]; ring
        simp only [hrr, ne_eq, hk0, not_false_eq_true, if_true, ite_true,
          hgap, Int.toNat_zero, Nat.add_zero]
        rw [if_neg (lt_irrefl (0 : ℤ)),
          if_neg (by norm_num : ¬ ((0 : ℤ) > 1)),
          if_neg (by omega : ¬ nel ≤ k)]
        have hstep := ih (nel - (k + 1)) (by omega) (k + 1) (t0 - (k : ℤ))
          (sumW + weights.getD k 0) (sumR + (R : ℚ) * weights.getD k 0)
          (by omega) (by omega) (fun _ => by push_cast; ring)
        rw [hstep]
        simp only [Option.some.injEq, Prod.mk.injEq,
          wsum_succ weights nel k hklt hn2]
        constructor <;> ring
    · have hke : k = nel := by omega
      subst hke
      rw [weight_samples_loop, if_neg hklt, wsum_end]
      norm_num

/-- C9.  A five-tick run of identical consecutive samples with rate R,
together with a current reading of R, makes calc_rates produce
slow_rate = R exactly. -/
theorem calc_rates_constant_run (d : domain_info) (t R : ℤ)
    (hh : d.rate_history = [⟨t-1, R⟩, ⟨t-2, R⟩, ⟨t-3, R⟩, ⟨t-4, R⟩, ⟨t-5, R⟩])
    (hr : d.rate = R) :
    ∃ d2, calc_rates d t = some d2 ∧ d2.slow_rate = R := by
  have hconst : ∀ i (h : i < ([⟨t, R⟩, ⟨t-1, R⟩, ⟨t-2, R⟩, ⟨t-3, R⟩,
      ⟨t-4, R⟩] : List rate_record).length),
      ([⟨t, R⟩, ⟨t-1, R⟩, ⟨t-2, R⟩, ⟨t-3, R⟩,
        ⟨t-4, R⟩] : List rate_record).get ⟨i, h⟩ = ⟨t - i, R⟩ := by
    intro i h
    simp only [List.length_cons, List.length_nil] at h
    interval_cases i <;>
      simp only [Nat.cast_ofNat, Nat.cast_zero, Nat.cast_one, sub_zero] <;>
      rfl
  have hloop := weight_samples_loop_const
    ([⟨t, R⟩, ⟨t-1, R⟩, ⟨t-2, R⟩, ⟨t-3, R⟩, ⟨t-4, R⟩] : List rate_record)
    slow_weights t R 5 (by norm_num) (by norm_num [slow_weights]) hconst
    5 0 0 0 0 (by norm_num) (by norm_num) (fun hne => absurd rfl hne)
  have hw18 : wsum slow_weights 5 0 = 18 := by
    norm_num [wsum, slow_weights]
  have hws : weight_samples
      ([⟨t, R⟩, ⟨t-1, R⟩, ⟨t-2, R⟩, ⟨t-3, R⟩, ⟨t-4, R⟩] : List rate_record)
      slow_weights = some (R : ℚ) := by
    have hmin : min slow_weights.length
        ([⟨t, R⟩, ⟨t-1, R⟩, ⟨t-2, R⟩, ⟨t-3, R⟩,
          ⟨t-4, R⟩] : List rate_record).length = 5 := by
      norm_num [slow_weights]
    rw [weight_samples, hmin, hloop, hw18, Option.map_some']
    simp only [Option.some.injEq, zero_add]
    field_simp
  have htake : ((⟨t, d.rate⟩ : rate_record) :: d.rate_history).take
      slow_weights.length
      = [⟨t, R⟩, ⟨t-1, R⟩, ⟨t-2, R⟩, ⟨t-3, R⟩, ⟨t-4, R⟩] := by
    rw [hh, hr]
    rfl
  have hcalc : calc_rates d t = some
      { d with rate_history := [⟨t, R⟩, ⟨t-1, R⟩, ⟨t-2, R⟩, ⟨t-3, R⟩,
                                ⟨t-4, R⟩]
               fast_rate := d.rate
               slow_rate := max d.rate (dbl2long (R : ℚ)) } := by
    simp only [calc_rates]
    rw [htake, hws, Option.map_some']
  exact ⟨_, hcalc, by simp only [hr, dbl2long_intCast, max_self]⟩

/-- Witness for calc_rates_constant_run at t = 1005, R = 7. -/
def dom_c9 : domain_info where
  domain_id := 1
  xs_mem_max := 0
  xs_mem_target := 0
  xs_mem_videoram := 0
  ctrl_modes_allowed := 1
  xc_memory := -1
  xc_dmem_max := -1
  xc_dmem_quota := -1
  xc_dmem_min := -1
  xc_dmem_incr := -1
  xc_dmem_decr := -1
  xc_rate_high := -1
  xc_rate_low := -1
  xc_rate_zero := -1
  xc_guest_free_threshold := -1
  xc_startup_time := -1
  xc_trim_unresponsive := -1
  xc_trim_unmanaged := -1
  dmem_max := 0
  dmem_quota := 0
  dmem_min := 0
  dmem_incr := 0
  dmem_decr := 0
  rate_high := 200
  rate_low := 0
  rate_zero := 0
  guest_free_threshold := 0
  startup_time := 0
  trim_unresponsive := 0
  trim_unmanaged := false
  xen_data_size := 0
  last_report_tick := 0
  no_report_time := 0
  rate_history := [⟨1004, 7⟩, ⟨1003, 7⟩, ⟨1002, 7⟩, ⟨1001, 7⟩, ⟨1000, 7⟩]
  time_rate_below_low := 0
  time_rate_below_high := 0
  last_expand_tick := 0
  preshrink := 0
  preshrink_tick := 0
  flag_dying := false
  flag_shutdown := false
  flag_paused := false
  valid_data := true
  valid_memory_data := true
  trimming_to_quota := false
  balside := balside_t.NEUTRAL
  rate := 7
  freepct := 0
  fast_rate := 0
  slow_rate := 0
  memgoal0 := 0
  memsize0 := 0
  memsize := 0
  memsize_incr := 0
  memsize_decr := 0
  expand_force := 0
  resist_force := 0
  expand_force0 := 0

/-- Witness: calc_rates_constant_run applied at the concrete domain dom_c9,
tick 1005 and rate 7. -/
theorem calc_rates_constant_run_witness :
    ∃ d2, calc_rates dom_c9 1005 = some d2 ∧ d2.slow_rate = 7 :=
  calc_rates_constant_run dom_c9 1005 7 (by norm_num [dom_c9]) rfl

/-- Neutral concrete domain record used as the base of test fixtures. -/
def dom0 : domain_info where
  domain_id := 1
  xs_mem_max := 0
  xs_mem_target := 0
  xs_mem_videoram := 0
  ctrl_modes_allowed := 1
  xc_memory := -1
  xc_dmem_max := -1
  xc_dmem_quota := -1
  xc_dmem_min := -1
  xc_dmem_incr := -1
  xc_dmem_decr := -1
  xc_rate_high := -1
  xc_rate_low := -1
  xc_rate_zero := -1
  xc_guest_free_threshold := -1
  xc_startup_time := -1
  xc_trim_unresponsive := -1
  xc_trim_unmanaged := -1
  dmem_max := 0
  dmem_quota := 0
  dmem_min := 0
  dmem_incr := 0
  dmem_decr := 0
  rate_high := 200
  rate_low := 0
  rate_zero := 0
  guest_free_threshold := 0
  startup_time := 0
  trim_unresponsive := 0
  trim_unmanaged := false
  xen_data_size := 0
  last_report_tick := 0
  no_report_time := 0
  rate_history := []
  time_rate_below_low := 0
  time_rate_below_high := 0
  last_expand_tick := 0
  preshrink := 0
  preshrink_tick := 0
  flag_dying := false
  flag_shutdown := false
  flag_paused := false
  valid_data := true
  valid_memory_data := true
  trimming_to_quota := false
  balside := balside_t.NEUTRAL
  rate := 0
  freepct := 0
  fast_rate := 0
  slow_rate := 0
  memgoal0 := 0
  memsize0 := 0
  memsize := 0
  memsize_incr := 0
  memsize_decr := 0
  expand_force := 0
  resist_force := 0
  expand_force0 := 0

/-- Concrete global configuration with the hardwired defaults of
config_def.h (guest_free_threshold 0.15, interval 5, rates 200/0/30). -/
def cfg_c1 : membalance_config where
  interval := 5
  host_reserved_hard := 0
  host_reserved_soft := 0
  shrink_protection_time := 1
  domain_freemem_timeout := 700
  isval_dmem_incr := true
  dmem_incr := 3/50
  isval_dmem_decr := true
  dmem_decr := 1/25
  isval_rate_high := true
  rate_high := 200
  isval_rate_low := true
  rate_low := 0
  isval_rate_zero := true
  rate_zero := 30
  isval_guest_free_threshold := true
  guest_free_threshold := 3/20
  isval_startup_time := true
  startup_time := 300
  isval_trim_unresponsive := true
  trim_unresponsive := 200
  isval_trim_unmanaged := true
  trim_unmanaged := true
  memquant_kbs := 4

/-- Domain whose resolved (per-domain build config, domain.cpp lines
959-965) guest_free_threshold is 0.05, differing from the global default
0.15 carried by cfg_c1. -/
def dom_c2 : domain_info :=
  { dom0 with guest_free_threshold := 1/20, xc_guest_free_threshold := 1/20 }

/-- C2: the guest-free override of stage_collect_data compares freepct
against config.guest_free_threshold (sched.cpp line 1339), not against the
resolved per-domain value.  At freepct = 10, kbsec = 100, with the domain
threshold resolved to 5 percent and the global one at 15 percent, the
reported freepct exceeds 100 times the resolved per-domain threshold, yet
the rate of the tick stays 100 instead of being overridden to 0. -/
theorem stage1_threshold_uses_global_config :
    (10 : ℚ) > dom_c2.guest_free_threshold * 100 ∧
    dom_c2.guest_free_threshold = dom_c2.xc_guest_free_threshold ∧
    (stage_collect_report cfg_c1 1000 100 10 dom_c2).map
        domain_info.rate = some 100 ∧
    (stage_collect_report cfg_c1 1000 100 10 dom_c2).map
        domain_info.fast_rate = some 100 ∧ (100 : ℤ) ≠ 0 := by
  have hloop : weight_samples_loop [⟨1000, 100⟩] slow_weights
      1 0 0 0 0 = some (10, 1000) := by
    rw [weight_samples_loop]
    norm_num [List.getD, slow_weights]
    rw [weight_samples_loop]
    norm_num
  have hws : weight_samples
      ((((⟨1000, 100⟩ : rate_record) :: [])).take
        slow_weights.length) slow_weights = some ((100 : ℚ)) := by
    have htake : (((⟨1000, 100⟩ : rate_record) :: ([] : List rate_record))).take
        slow_weights.length = [⟨1000, 100⟩] := rfl
    rw [weight_samples, htake]
    have hmin : min slow_weights.length
        ([⟨1000, 100⟩] : List rate_record).length = 1 := by
      norm_num [slow_weights]
    rw [hmin, hloop, Option.map_some']
    norm_num
  have hd : dbl2long ((100 : ℚ)) = 100 := dbl2long_intCast 100
  refine ⟨by norm_num [dom_c2, dom0], by norm_num [dom_c2, dom0],
    ?_, ?_, by norm_num⟩ <;>
  · simp only [stage_collect_report, calc_rates, dom_c2, dom0, cfg_c1]
    norm_num [hws, hd, Option.map_some']

/-! ## Settings resolution: domain_info::resolve_settings (domain.cpp) -/

/-- CTRL_MODE_AUTO membership test: 0 != (ctrl_modes_allowed & CTRL_MODE_AUTO)
with CTRL_MODE_AUTO = 1, i.e. the low bit (parity) of the mask. -/
def automode (d : domain_info) : Bool := d.ctrl_modes_allowed % 2 != 0

/-- Resolution chain for dmem_min (domain.cpp lines 891-897). -/
def r_dmem_min (d : domain_info) : Option ℤ :=
  if d.xc_dmem_min ≥ 0 then some d.xc_dmem_min
  else if d.xc_memory ≥ 0 then some d.xc_memory
  else none

/-- Resolution chain for dmem_max (domain.cpp lines 899-907). -/
def r_dmem_max (d : domain_info) : Option ℤ :=
  if d.xc_dmem_max ≥ 0 then some d.xc_dmem_max
  else if d.xs_mem_max ≥ 0 then some d.xs_mem_max
  else if d.xc_memory ≥ 0 then some d.xc_memory
  else none

/-- Resolution chain for dmem_quota (domain.cpp lines 911-917). -/
def r_dmem_quota (d : domain_info) : Option ℤ :=
  if d.xc_dmem_quota ≥ 0 then some d.xc_dmem_quota
  else if d.xc_memory ≥ 0 then some d.xc_memory
  else none

/-- Resolution chain for dmem_incr (domain.cpp lines 919-925). -/
def r_dmem_incr (cfg : membalance_config) (d : domain_info) : Option ℚ :=
  if d.xc_dmem_incr ≥ 0 then some d.xc_dmem_incr
  else if cfg.isval_dmem_incr then some cfg.dmem_incr
  else none

/-- Resolution chain for dmem_decr (domain.cpp lines 927-933). -/
def r_dmem_decr (cfg : membalance_config) (d : domain_info) : Option ℚ :=
  if d.xc_dmem_decr ≥ 0 then some d.xc_dmem_decr
  else if cfg.isval_dmem_decr then some cfg.dmem_decr
  else none

/-- Resolution chain for rate_high (domain.cpp lines 935-941). -/
def r_rate_high (cfg : membalance_config) (d : domain_info) : Option ℤ :=
  if d.xc_rate_high ≥ 0 then some d.xc_rate_high
  else if cfg.isval_rate_high then some cfg.rate_high
  else none

/-- Resolution chain for rate_low (domain.cpp lines 943-949). -/
def r_rate_low (cfg : membalance_config) (d : domain_info) : Option ℤ :=
  if d.xc_rate_low ≥ 0 then some d.xc_rate_low
  else if cfg.isval_rate_low then some cfg.rate_low
  else none

/-- Resolution chain for rate_zero (domain.cpp lines 951-957). -/
def r_rate_zero (cfg : membalance_config) (d : domain_info) : Option ℤ :=
  if d.xc_rate_zero ≥ 0 then some d.xc_rate_zero
  else if cfg.isval_rate_zero then some cfg.rate_zero
  else none

/-- Resolution chain for guest_free_threshold (domain.cpp lines 959-965). -/
def r_guest_free_threshold (cfg : membalance_config) (d : domain_info) :
    Option ℚ :=
  if d.xc_guest_free_threshold ≥ 0 then some d.xc_guest_free_threshold
  else if cfg.isval_guest_free_threshold then some cfg.guest_free_threshold
  else none

/-- Resolution chain for startup_time (domain.cpp lines 967-971);
does not participate in validity. -/
def r_startup_time (cfg : membalance_config) (d : domain_info) : Option ℤ :=
  if d.xc_startup_time ≥ 0 then some d.xc_startup_time
  else if cfg.isval_startup_time then some cfg.startup_time
  else none

/-- Resolution chain for trim_unresponsive (domain.cpp lines 973-977). -/
def r_trim_unresponsive (cfg : membalance_config) (d : domain_info) :
    Option ℤ :=
  if d.xc_trim_unresponsive ≥ 0 then some d.xc_trim_unresponsive
  else if cfg.isval_trim_unresponsive then some cfg.trim_unresponsive
  else none

/-- Resolution chain for trim_unmanaged (domain.cpp lines 979-983);
the tribool TriMaybe is -1 and the C bool cast maps nonzero to true. -/
def r_trim_unmanaged (cfg : membalance_config) (d : domain_info) :
    Option Bool :=
  if d.xc_trim_unmanaged ≠ -1 then some (d.xc_trim_unmanaged ≠ 0)
  else if cfg.isval_trim_unmanaged then some cfg.trim_unmanaged
  else none

/-- All settings required before the CHECK(valid) of resolve_settings are
defined: dmem_min and dmem_max always, and the seven AUTO-mode settings
when AUTO is among the allowed control modes. -/
def required_defined (cfg : membalance_config) (d : domain_info) : Bool :=
  (r_dmem_min d).isSome && (r_dmem_max d).isSome &&
  (!(automode d) ||
    ((r_dmem_quota d).isSome && (r_dmem_incr cfg d).isSome &&
     (r_dmem_decr cfg d).isSome && (r_rate_high cfg d).isSome &&
     (r_rate_low cfg d).isSome && (r_rate_zero cfg d).isSome &&
     (r_guest_free_threshold cfg d).isSome))

/-- Result of resolve_settings: the return value, the updated domain
record, the unfulfilled-consistency-condition list (the source joins it
with ", " into one error message; the numeric values interpolated by the
source into each entry are elided) and the undefined-parameter error
messages issued by undefined_setting. -/
structure resolve_result where
  ok : Bool
  dom : domain_info
  msg : List String
  undefined : List String

/-- domain_info::resolve_settings (domain.cpp lines 879-1079): resolve each
setting along its precedence chain (fields keep their previous values when
their chain is exhausted), bail out if a required setting is undefined
(CHECK(valid)), round the memory sizes up to the allocation quant, verify
the consistency conditions accumulating a message list, and finally reject
dmem_min == dmem_max with a warning (empty message list). -/
def resolve_settings (cfg : membalance_config) (d0 : domain_info) :
    resolve_result :=
  let am := automode d0
  let d1 := { d0 with
    dmem_min := (r_dmem_min d0).getD d0.dmem_min
    dmem_max := (r_dmem_max d0).getD d0.dmem_max
    dmem_quota := if am then (r_dmem_quota d0).getD d0.dmem_quota
                  else d0.dmem_quota
    dmem_incr := if am then (r_dmem_incr cfg d0).getD d0.dmem_incr
                 else d0.dmem_incr
    dmem_decr := if am then (r_dmem_decr cfg d0).getD d0.dmem_decr
                 else d0.dmem_decr
    rate_high := if am then (r_rate_high cfg d0).getD d0.rate_high
                 else d0.rate_high
    rate_low := if am then (r_rate_low cfg d0).getD d0.rate_low
                else d0.rate_low
    rate_zero := if am then (r_rate_zero cfg d0).getD d0.rate_zero
                 else d0.rate_zero
    guest_free_threshold :=
      if am then (r_guest_free_threshold cfg d0).getD d0.guest_free_threshold
      else d0.guest_free_threshold
    startup_time := if am then (r_startup_time cfg d0).getD d0.startup_time
                    else d0.startup_time
    trim_unresponsive :=
      if am then (r_trim_unresponsive cfg d0).getD d0.trim_unresponsive
      else d0.trim_unresponsive
    trim_unmanaged :=
      if am then (r_trim_unmanaged cfg d0).getD d0.trim_unmanaged
      else d0.trim_unmanaged }
  let undef : List String :=
    (if (r_dmem_min d0).isSome then [] else ["dmem_min"]) ++
    (if (r_dmem_max d0).isSome then [] else ["dmem_max"]) ++
    (if am then
      (if (r_dmem_quota d0).isSome then [] else ["dmem_quota"]) ++
      (if (r_dmem_incr cfg d0).isSome then [] else ["dmem_incr"]) ++
      (if (r_dmem_decr cfg d0).isSome then [] else ["dmem_decr"]) ++
      (if (r_rate_high cfg d0).isSome then [] else ["rate_high"]) ++
      (if (r_rate_low cfg d0).isSome then [] else ["rate_low"]) ++
      (if (r_rate_zero cfg d0).isSome then [] else ["rate_zero"]) ++
      (if (r_guest_free_threshold cfg d0).isSome then []
       else ["guest_free_threshold"])
     else [])
  if required_defined cfg d0 then
    let d2 := { d1 with
      dmem_max := if d1.dmem_max ≥ 0 then roundup d1.dmem_max cfg.memquant_kbs
                  else d1.dmem_max
      dmem_min := if d1.dmem_min ≥ 0 then roundup d1.dmem_min cfg.memquant_kbs
                  else d1.dmem_min
      dmem_quota := if d1.dmem_quota ≥ 0
                    then roundup d1.dmem_quota cfg.memquant_kbs
                    else d1.dmem_quota }
    let msg : List String :=
      (if am ∧ ¬ (d2.rate_low < d2.rate_high)
       then ["rate_low < rate_high"] else []) ++
      (if am ∧ ¬ (d2.dmem_min ≤ d2.dmem_quota)
       then ["dmem_min <= dmem_quota"] else []) ++
      (if am ∧ ¬ (d2.dmem_quota ≤ d2.dmem_max)
       then ["dmem_quota <= dmem_max"] else []) ++
      (if ¬ am ∧ ¬ (d2.dmem_min ≤ d2.dmem_max)
       then ["dmem_min <= dmem_max"] else []) ++
      (if ¬ (d2.dmem_max ≤ d2.xs_mem_max)
       then ["dmem_max <= maxmem"] else []) ++
      (if d2.xs_mem_videoram > 0 ∧ d2.xs_mem_videoram % cfg.memquant_kbs ≠ 0
       then ["videoram is multiple of page size"] else [])
    if msg ≠ [] then ⟨false, d2, msg, []⟩
    else if d2.dmem_min = d2.dmem_max then ⟨false, d2, [], []⟩
    else ⟨true, d2, [], []⟩
  else
    ⟨false, d1, [], undef⟩

/-- The consistency conditions exactly as claimed (spec section 3
invariants plus the precedence-chain resolution and required-field
definedness): this is the claim-side characterisation against which
resolve_settings is compared. -/
def claim_consistent (cfg : membalance_config) (d : domain_info) : Prop :=
  required_defined cfg d = true ∧
  (automode d = true →
    ((r_rate_low cfg d).getD 0 < (r_rate_high cfg d).getD 0 ∧
     roundup ((r_dmem_min d).getD 0) cfg.memquant_kbs ≤
       roundup ((r_dmem_quota d).getD 0) cfg.memquant_kbs ∧
     roundup ((r_dmem_quota d).getD 0) cfg.memquant_kbs ≤
       roundup ((r_dmem_max d).getD 0) cfg.memquant_kbs)) ∧
  (automode d = false →
    roundup ((r_dmem_min d).getD 0) cfg.memquant_kbs ≤
      roundup ((r_dmem_max d).getD 0) cfg.memquant_kbs) ∧
  roundup ((r_dmem_max d).getD 0) cfg.memquant_kbs ≤ d.xs_mem_max ∧
  (d.xs_mem_videoram > 0 → d.xs_mem_videoram % cfg.memquant_kbs = 0)

lemma ite_singleton_nil {c : Prop} [Decidable c] {t : String} :
    ((if c then [t] else ([] : List String)) = []) ↔ ¬ c := by
  split <;> simp_all

lemma r_dmem_min_nonneg {d : domain_info} {v : ℤ}
    (h : r_dmem_min d = some v) : 0 ≤ v := by
  unfold r_dmem_min at h
  split_ifs at h <;> simp_all

lemma r_dmem_max_nonneg {d : domain_info} {v : ℤ}
    (h : r_dmem_max d = some v) : 0 ≤ v := by
  unfold r_dmem_max at h
  split_ifs at h <;> simp_all

lemma r_dmem_quota_nonneg {d : domain_info} {v : ℤ}
    (h : r_dmem_quota d = some v) : 0 ≤ v := by
  unfold r_dmem_quota at h
  split_ifs at h <;> simp_all

/-- C7 (amended).  resolve_settings returns true iff all required settings
resolve along their precedence chains AND the consistency conditions hold
on the resolved, quant-rounded values AND additionally dmem_min ≠ dmem_max
after rounding (the source rejects dmem_min == dmem_max with a warning even
though every consistency condition of the claim is satisfied there). -/
theorem resolve_settings_ok_iff (cfg : membalance_config) (d : domain_info) :
    (resolve_settings cfg d).ok = true ↔
      (claim_consistent cfg d ∧
       roundup ((r_dmem_min d).getD 0) cfg.memquant_kbs ≠
         roundup ((r_dmem_max d).getD 0) cfg.memquant_kbs) := by
  by_cases hreq : required_defined cfg d = true
  · have hreq' := hreq
    simp only [required_defined, Bool.and_eq_true] at hreq'
    obtain ⟨vmin, hvmin⟩ := Option.isSome_iff_exists.mp hreq'.1.1
    obtain ⟨vmax, hvmax⟩ := Option.isSome_iff_exists.mp hreq'.1.2
    have hminnn : (0 : ℤ) ≤ vmin := r_dmem_min_nonneg hvmin
    have hmaxnn : (0 : ℤ) ≤ vmax := r_dmem_max_nonneg hvmax
    by_cases ham : automode d = true
    · have hauto := hreq'.2
      rw [ham] at hauto
      simp only [Bool.not_true, Bool.false_or, Bool.and_eq_true] at hauto
      obtain ⟨vq, hvq⟩ := Option.isSome_iff_exists.mp hauto.1.1.1.1.1.1
      obtain ⟨vrh, hvrh⟩ := Option.isSome_iff_exists.mp hauto.1.1.1.2
      obtain ⟨vrl, hvrl⟩ := Option.isSome_iff_exists.mp hauto.1.1.2
      have hqnn : (0 : ℤ) ≤ vq := r_dmem_quota_nonneg hvq
      simp only [resolve_settings, claim_consistent, hreq, ham, hvmin,
        hvmax, hvq, hvrh, hvrl, Option.getD_some, if_true, ite_true,
        apply_ite resolve_result.ok, ge_iff_le, hminnn, hmaxnn, hqnn,
        List.append_eq_nil, ite_singleton_nil, ne_eq, Bool.true_eq_false,
        true_and, false_and, and_true, and_false, not_and, not_not,
        not_false_eq_true, not_true_eq_false, ite_false, if_false,
        ite_eq_right_iff, forall_true_left, true_implies, false_implies,
        Bool.false_eq_true, IsEmpty.forall_iff]
      split_ifs <;> simp_all
    · have ham' : automode d = false := by simpa using ham
      simp only [resolve_settings, claim_consistent, hreq, ham', hvmin,
        hvmax, Option.getD_some, if_true, ite_true,
        apply_ite resolve_result.ok, ge_iff_le, hminnn, hmaxnn,
        List.append_eq_nil, ite_singleton_nil, ne_eq, Bool.false_eq_true,
        true_and, false_and, and_true, and_false, not_and, not_not,
        not_false_eq_true, not_true_eq_false, ite_false, if_false,
        ite_eq_right_iff, forall_true_left, true_implies, false_implies,
        Bool.true_eq_false, IsEmpty.forall_iff]
      split_ifs <;> simp_all
  · have hreqf : required_defined cfg d = false := by
      simpa using hreq
    constructor
    · intro hok
      exfalso
      simp only [resolve_settings, hreqf, Bool.false_eq_true, if_false,
        ite_false] at hok
    · intro hc
      exact absurd hc.1.1 (by simp [hreqf])

/-- Domain input for the C7 counterexample: AUTO mode allowed, build config
defining dmem_min = dmem_quota = dmem_max = 1024 (a multiple of the 4 KB
quant), maxmem 2048, no videoram; all rate settings resolved from the
global defaults of cfg_c1.  Every consistency condition claimed for
resolve_settings holds, yet it returns false. -/
def dom_c7 : domain_info :=
  { dom0 with xc_dmem_min := 1024, xc_dmem_quota := 1024,
              xc_dmem_max := 1024, xs_mem_max := 2048,
              xs_mem_videoram := 0 }

/-- C7 counterexample: at dom_c7 all claimed consistency conditions hold
(and all required fields are defined), but resolve_settings returns false
because dmem_min == dmem_max. -/
theorem resolve_settings_ok_iff_cex :
    claim_consistent cfg_c1 dom_c7 ∧
    (resolve_settings cfg_c1 dom_c7).ok = false := by
  constructor
  · refine ⟨by norm_num [required_defined, automode, r_dmem_min, r_dmem_max,
      r_dmem_quota, r_dmem_incr, r_dmem_decr, r_rate_high, r_rate_low,
      r_rate_zero, r_guest_free_threshold, dom_c7, dom0, cfg_c1],
      ?_, ?_, ?_, ?_⟩
    · intro _
      refine ⟨?_, ?_, ?_⟩ <;>
        norm_num [r_rate_low, r_rate_high, r_dmem_min, r_dmem_max,
          r_dmem_quota, roundup, dom_c7, dom0, cfg_c1,
          (by decide : Int.tdiv 1027 4 = 256)]
    · intro hfalse
      exfalso
      norm_num [automode, dom_c7, dom0] at hfalse
    · norm_num [r_dmem_max, roundup, dom_c7, dom0, cfg_c1,
        (by decide : Int.tdiv 1027 4 = 256)]
    · intro hv
      exfalso
      norm_num [dom_c7, dom0] at hv
  · norm_num [resolve_settings, required_defined, automode, r_dmem_min,
      r_dmem_max, r_dmem_quota, r_dmem_incr, r_dmem_decr, r_rate_high,
      r_rate_low, r_rate_zero, r_guest_free_threshold, roundup,
      dom_c7, dom0, cfg_c1, (by decide : Int.tdiv 1027 4 = 256)]

/-! ## Report parsing: domain_info::parse_domain_report (sched.cpp) -/

/-- Value of a string of decimal digits. -/
def digitsToInt (ds : List Char) : ℤ :=
  ds.foldl (fun a c => a * 10 + ((c.toNat : ℤ) - 48)) 0

/-- C isxdigit: decimal digit or hexadecimal letter of either case. -/
def c_isxdigit (c : Char) : Bool :=
  c.isDigit || ('a' ≤ c && c ≤ 'f') || ('A' ≤ c && c ≤ 'F')

/-- Numeric value of one hexadecimal digit. -/
def hexDigitVal (c : Char) : ℤ :=
  if c.isDigit then (c.toNat : ℤ) - 48
  else if 'a' ≤ c && c ≤ 'f' then (c.toNat : ℤ) - 87
  else (c.toNat : ℤ) - 55

/-- Value of a string of hexadecimal digits. -/
def hexToInt (ds : List Char) : ℤ :=
  ds.foldl (fun a c => a * 16 + hexDigitVal c) 0

/-- Binary exponentiation on integers, structurally bounded by a fuel
that the initial call sets to the exponent plus one; the evaluation depth
is logarithmic in the exponent, which keeps the power computations of the
strtod range checks shallow. -/
def ipow_aux : ℕ → ℤ → ℕ → ℤ
  | 0, _, _ => 1
  | fuel + 1, b, n =>
    if n = 0 then 1
    else
      let h := ipow_aux fuel (b * b) (n / 2)
      if n % 2 = 1 then b * h else h

/-- b^n on integers via binary exponentiation. -/
def ipow (b : ℤ) (n : ℕ) : ℤ := ipow_aux (n + 1) b n

/-- The exponent suffix of a strtod subject: an optional sign and a
nonempty run of decimal digits consuming the whole remainder.  A
malformed or incomplete exponent leaves characters past endptr, which
a2double rejects either way, so it is collapsed to `none`. -/
def strtod_exp_val (r : List Char) : Option ℤ :=
  let ep : ℤ × List Char :=
    match r with
    | '-' :: rr => (-1, rr)
    | '+' :: rr => (1, rr)
    | rr => (1, rr)
  let eds := ep.2.takeWhile Char.isDigit
  if eds = [] then none
  else if ¬ ep.2.dropWhile Char.isDigit = [] then none
  else some (ep.1 * digitsToInt eds)

/-- The decimal strtod subject D+ [. D*] [e|E [sign] D+], fully consumed
(the caller has checked the leading digit).  The exact value is returned
in scaled-integer form (n, p10, p2) standing for n·10^p10·2^p2. -/
def strtod_dec (s : List Char) : Option (ℤ × ℤ × ℤ) :=
  let ds := s.takeWhile Char.isDigit
  let r1 := s.dropWhile Char.isDigit
  let fp : List Char × List Char :=
    match r1 with
    | '.' :: r => (r.takeWhile Char.isDigit, r.dropWhile Char.isDigit)
    | _ => ([], r1)
  let n := digitsToInt ds * ipow 10 fp.1.length + digitsToInt fp.1
  match fp.2 with
  | [] => some (n, -(fp.1.length : ℤ), 0)
  | 'e' :: r => (strtod_exp_val r).map (fun e => (n, e - fp.1.length, 0))
  | 'E' :: r => (strtod_exp_val r).map (fun e => (n, e - fp.1.length, 0))
  | _ => none

/-- The C99 hexadecimal strtod subject after the 0x/0X prefix:
H* [. H*] [p|P [sign] D+] with at least one hexadecimal digit overall
(otherwise the subject sequence is just the leading 0 and the x remains
past endptr), fully consumed; the binary exponent is written in decimal
digits.  Scaled-integer value as in strtod_dec. -/
def strtod_hex (r : List Char) : Option (ℤ × ℤ × ℤ) :=
  let hs := r.takeWhile c_isxdigit
  let r1 := r.dropWhile c_isxdigit
  let fp : List Char × List Char :=
    match r1 with
    | '.' :: rr => (rr.takeWhile c_isxdigit, rr.dropWhile c_isxdigit)
    | _ => ([], r1)
  if hs = [] ∧ fp.1 = [] then none
  else
    let n := hexToInt hs * ipow 16 fp.1.length + hexToInt fp.1
    match fp.2 with
    | [] => some (n, 0, -(4 * fp.1.length : ℤ))
    | 'p' :: rr => (strtod_exp_val rr).map (fun e => (n, 0, e - 4 * fp.1.length))
    | 'P' :: rr => (strtod_exp_val rr).map (fun e => (n, 0, e - 4 * fp.1.length))
    | _ => none

/-- The exact value of a fully-consumed strtod subject starting with a
decimal digit: the C99 hexadecimal form when the string starts 0x or 0X,
the decimal form otherwise.  inf/nan and leading whitespace or sign never
start with a digit, so a2double's isdigit(*cp) gate excludes them. -/
def strtod_num (s : List Char) : Option (ℤ × ℤ × ℤ) :=
  match s with
  | '0' :: 'x' :: r => strtod_hex r
  | '0' :: 'X' :: r => strtod_hex r
  | _ => strtod_dec s

/-- glibc strtod sets ERANGE exactly when the correctly rounded
(round-to-nearest-even) result of the exact nonnegative value q =
n·10^p10·2^p2 overflows double (q at or above (2^54 - 1)·2^970, the
midpoint between DBL_MAX and 2^1024) or underflows to a subnormal or
zero (q nonzero and below (2^53 - 1)/2^1075, the midpoint between the
largest subnormal and the smallest normal 2^-1022).  Both tests are
decided on integers after clearing denominators: q = a/b with
a = n·10^max(p10,0)·2^max(p2,0) and b = 10^max(-p10,0)·2^max(-p2,0). -/
def strtod_erange (n p10 p2 : ℤ) : Bool :=
  if n ≤ 0 then false
  else
    let a := n * ipow 10 (max p10 0).toNat * ipow 2 (max p2 0).toNat
    let b := ipow 10 (max (-p10) 0).toNat * ipow 2 (max (-p2) 0).toNat
    decide ((ipow 2 54 - 1) * ipow 2 970 * b ≤ a) ||
    decide (a * ipow 2 1075 < (ipow 2 53 - 1) * b)

/-- a2double (config_parser.cpp lines 838-853): strtod with errno checked
(ERANGE on overflow or underflow rejects), full consumption required
(*ep must be the terminator), at least one converted character, and the
additional constraint that the first character of the input is a decimal
digit (isdigit(*cp)). -/
def a2double (s : List Char) : Option ℚ :=
  match s with
  | [] => none
  | c :: _ =>
    if ¬ c.isDigit then none
    else
      match strtod_num s with
      | none => none
      | some (n, p10, p2) =>
        if strtod_erange n p10 p2 then none
        else some ((n : ℚ) * 10 ^ p10 * 2 ^ p2)

/-- strtod fidelity check: the C99 hexadecimal float 0x10 is accepted
(its leading 0 passes the isdigit gate) while 0x with no hex digit leaves
the x past endptr and is rejected. -/
theorem a2double_hex :
    (a2double (("0x10").data)).isSome = true ∧
    (a2double (("0x").data)).isSome = false := by
  refine ⟨by decide, by decide⟩

/-- strtod fidelity check: 9e999 overflows double, strtod sets ERANGE and
a2double rejects; 1e-999 underflows to zero and is also rejected. -/
theorem a2double_erange :
    (a2double (("9e999").data)).isSome = false ∧
    (a2double (("1e-999").data)).isSome = false := by
  refine ⟨by decide, by decide⟩

/-- DBL_EPSILON, the eps of sched.cpp line 99. -/
def eps : ℚ := 1 / 2 ^ 52

/-- resist_force_free_soft (sched.cpp line 96). -/
def resist_force_free_soft : ℚ := 45

/-- category_t of membalanced.h. -/
inductive category_t where
  | C_LOW
  | C_MID
  | C_HIGH
deriving DecidableEq, Repr

/-- rate_category (sched.cpp lines 207-215). -/
def rate_category (d : domain_info) (rate : ℤ) : category_t :=
  if rate ≥ d.rate_high then .C_HIGH
  else if rate ≤ d.rate_low then .C_LOW
  else .C_MID

/-- size_resist_category (sched.cpp lines 225-233). -/
def size_resist_category (d : domain_info) (size : ℤ) : category_t :=
  if size > d.dmem_quota then .C_HIGH
  else if size ≤ d.dmem_min then .C_LOW
  else .C_MID

/-- size_expand_category (sched.cpp lines 243-251). -/
def size_expand_category (d : domain_info) (size : ℤ) : category_t :=
  if size ≥ d.dmem_quota then .C_HIGH
  else if size < d.dmem_min then .C_LOW
  else .C_MID

/-- is_shrink_soft_protected (sched.cpp lines 259-262). -/
def is_shrink_soft_protected (cfg : membalance_config) (tick : ℤ)
    (d : domain_info) : Bool :=
  decide (tick - d.last_expand_tick ≤ cfg.shrink_protection_time)

/-- Dereference a domvector entry: the heap record with the given domain
id (doms.managed maps each id to one record, so ids name unique records;
the default is never reached for ids taken from the heap). -/
def getDom (hp : List domain_info) (i : ℤ) : domain_info :=
  (hp.find? fun d => d.domain_id == i).getD dom0

/-- A write through a domain_info pointer: replace the record with the
given id by its image under f. -/
def updDom (hp : List domain_info) (i : ℤ) (f : domain_info → domain_info) :
    List domain_info :=
  hp.map fun d => if d.domain_id == i then f d else d

/-- Insert an id into a key-sorted id list: it goes after every entry that
strictly precedes it under `before` (stable insertion). -/
def ins_sorted (before : ℤ → ℤ → Bool) (i : ℤ) : List ℤ → List ℤ
  | [] => [i]
  | x :: xs => if before x i then x :: ins_sorted before i xs else i :: x :: xs

/-- Stable sort of an id list under the strict precedence `before`
(std::sort with a domvector comparator, pointer tie-break fixed to
stability). -/
def sort_ids (before : ℤ → ℤ → Bool) (l : List ℤ) : List ℤ :=
  l.foldr (ins_sorted before) []

/-- eval_force (sched.cpp lines 2808-2813). -/
def eval_force (rate : ℤ) (base : ℚ) (rmax : ℤ) : ℚ :=
  if rmax ≠ 0 then base + (rate : ℚ) / (rmax : ℚ) else base

/-- rmax of eval_resist_force_context (sched.cpp lines 2820-2839): maximum
slow_rate over the vector members carrying valid data, from 0. -/
def resist_rmax (hp : List domain_info) (ids : List ℤ) : ℤ :=
  ids.foldl
    (fun r i =>
      let d := getDom hp i
      if d.valid_data then max r d.slow_rate else r) 0

/-- eval_resist_force for one domain (sched.cpp lines 2841-2894), with the
context base table base[C_MID][C_MID] = 60, base[C_MID][C_HIGH] = 30,
base[C_HIGH][C_MID] = 100, base[C_HIGH][C_HIGH] = 50. -/
def resist_force_of (rmax : ℤ) (d : domain_info) : ℚ :=
  if !d.valid_data then
    match size_resist_category d d.memsize with
    | .C_LOW => 500
    | .C_MID => 62
    | .C_HIGH => 32
  else
    match size_resist_category d d.memsize, rate_category d d.slow_rate with
    | .C_LOW, _ => 500
    | .C_MID, .C_LOW => 40
    | .C_MID, .C_MID => eval_force d.slow_rate 60 rmax
    | .C_MID, .C_HIGH => eval_force d.slow_rate 100 rmax
    | .C_HIGH, .C_LOW => 0
    | .C_HIGH, .C_MID => eval_force d.slow_rate 30 rmax
    | .C_HIGH, .C_HIGH => eval_force d.slow_rate 50 rmax

/-- eval_resist_force over a vector (sched.cpp lines 2899-2919): build the
context over the ids, then store the force into each record. -/
def set_resist_forces (hp : List domain_info) (ids : List ℤ) :
    List domain_info :=
  let rmax := resist_rmax hp ids
  ids.foldl
    (fun h i => updDom h i fun d =>
      { d with resist_force := resist_force_of rmax d }) hp

/-- rmax of eval_expand_force_context (sched.cpp lines 2926-2948): maximum
fast_rate over the vector members, from 0; `none` embeds the fatal_msg on
a member with no valid data. -/
def expand_rmax (hp : List domain_info) (ids : List ℤ) : Option ℤ :=
  if ids.all fun i => (getDom hp i).valid_data then
    some (ids.foldl (fun r i => max r (getDom hp i).fast_rate) 0)
  else none

/-- eval_expand_force for one domain (sched.cpp lines 2950-2991), same
base table as the resist context. -/
def expand_force_of (rmax : ℤ) (d : domain_info) : ℚ :=
  match rate_category d d.fast_rate, size_expand_category d d.memsize with
  | .C_LOW, _ => 0
  | .C_MID, .C_LOW => 200
  | .C_MID, .C_MID => eval_force d.fast_rate 60 rmax
  | .C_MID, .C_HIGH => eval_force d.fast_rate 30 rmax
  | .C_HIGH, .C_LOW => 300
  | .C_HIGH, .C_MID => eval_force d.fast_rate 100 rmax
  | .C_HIGH, .C_HIGH => eval_force d.fast_rate 50 rmax

/-- eval_more_decr (sched.cpp lines 1815-1824): the size one dmem_decr
slice down, quant-rounded up and clamped into [dmem_min, dmem_max]. -/
def eval_more_decr (cfg : membalance_config) (d : domain_info) : ℤ :=
  let m := dbl2long ((d.memsize : ℚ) * (1 - d.dmem_decr))
  let m := roundup m cfg.memquant_kbs
  let m := max d.dmem_min m
  min d.dmem_max m

/-- The trim for-loop shared by hard reclaim rounds 1-3 and soft reclaim
rounds 1-3 (e.g. sched.cpp lines 1865-1877): walk the sorted vector, trim
each domain down to its round target when that trim is positive, and stop
as soon as the goal is reached.  Returns the heap and the remaining goal. -/
def trim_round (target : domain_info → ℤ) :
    List domain_info → List ℤ → ℤ → List domain_info × ℤ
  | hp, [], goal => (hp, goal)
  | hp, i :: rest, goal =>
    let d := getDom hp i
    let trim := d.memsize - target d
    if trim > 0 then
      let trim := min trim goal
      let hp := updDom hp i fun x => { x with memsize := x.memsize - trim }
      if goal - trim ≤ 0 then (hp, goal - trim)
      else trim_round target hp rest (goal - trim)
    else trim_round target hp rest goal

/-- The inner for-loop of hard reclaim rounds 4 and 5 (sched.cpp lines
2059-2087 and 2169-2187): trim each vector member down to the round
target, stop once the goal is reached (the surviving vector is then dead),
and drop members squeezed down to the round floor. -/
def reclaim_pass (target floor : domain_info → ℤ) :
    List domain_info → List ℤ → ℤ → List domain_info × List ℤ × ℤ
  | hp, [], goal => (hp, [], goal)
  | hp, i :: rest, goal =>
    let d := getDom hp i
    let trim := d.memsize - target d
    if trim > 0 then
      let trim := min trim goal
      let hp := updDom hp i fun x => { x with memsize := x.memsize - trim }
      if goal - trim ≤ 0 then (hp, i :: rest, goal - trim)
      else
        let d2 := getDom hp i
        if d2.memsize ≤ floor d2 then reclaim_pass target floor hp rest (goal - trim)
        else
          let r := reclaim_pass target floor hp rest (goal - trim)
          (r.1, i :: r.2.1, r.2.2)
    else
      if d.memsize ≤ floor d then reclaim_pass target floor hp rest goal
      else
        let r := reclaim_pass target floor hp rest goal
        (r.1, i :: r.2.1, r.2.2)

/-- The while loop of hard reclaim rounds 4 and 5 (sched.cpp lines
2046-2088, 2157-2188): recompute and re-sort the resist forces, run a
pass, repeat while the goal is unmet and the vector nonempty. -/
def reclaim_loop (target floor : domain_info → ℤ) :
    ℕ → List domain_info → List ℤ → ℤ → List domain_info × ℤ
  | 0, hp, _, goal => (hp, goal)
  | fuel + 1, hp, ids, goal =>
    if goal > 0 ∧ ids ≠ [] then
      let hp := set_resist_forces hp ids
      let ids := sort_ids
        (fun a b => decide ((getDom hp a).resist_force < (getDom hp b).resist_force)) ids
      let r := reclaim_pass target floor hp ids goal
      reclaim_loop target floor fuel r.1 r.2.1 r.2.2
    else (hp, goal)

/-! ### Reclaim rounds and their drivers -/

/-- soft_reclaim_round_1 (sched.cpp lines 2252-2297). -/
def soft_reclaim_round_1 (cfg : membalance_config) (tick : ℤ)
    (hp : List domain_info) (goal : ℤ) : List domain_info × ℤ :=
  if goal ≤ 0 then (hp, goal)
  else
    let cand := hp.filter fun d =>
      d.valid_data && decide (d.time_rate_below_low ≠ 0) &&
      decide (d.memsize > d.dmem_quota) &&
      decide ((d.memsize : ℚ) > d.dmem_decr) &&
      runnable d && !d.trimming_to_quota &&
      !(is_shrink_soft_protected cfg tick d)
    let ids := sort_ids
      (fun a b => decide ((getDom hp a).time_rate_below_low >
                          (getDom hp b).time_rate_below_low))
      (cand.map (·.domain_id))
    trim_round (fun d => max d.memsize_decr d.dmem_quota) hp ids goal

/-- soft_reclaim_round_2 (sched.cpp lines 2314-2358). -/
def soft_reclaim_round_2 (cfg : membalance_config) (tick : ℤ)
    (hp : List domain_info) (goal : ℤ) : List domain_info × ℤ :=
  if goal ≤ 0 then (hp, goal)
  else
    let cand := hp.filter fun d =>
      d.valid_data && decide (d.time_rate_below_low ≠ 0) &&
      decide ((d.memsize : ℚ) > d.dmem_decr) &&
      runnable d && !d.trimming_to_quota &&
      !(is_shrink_soft_protected cfg tick d)
    let ids := sort_ids
      (fun a b => decide ((getDom hp a).time_rate_below_low >
                          (getDom hp b).time_rate_below_low))
      (cand.map (·.domain_id))
    trim_round (fun d => max d.memsize_decr d.dmem_min) hp ids goal

/-- soft_reclaim_round_3 (sched.cpp lines 2375-2420). -/
def soft_reclaim_round_3 (cfg : membalance_config) (tick : ℤ)
    (hp : List domain_info) (goal : ℤ) : List domain_info × ℤ :=
  if goal ≤ 0 then (hp, goal)
  else
    let cand := hp.filter fun d =>
      d.valid_data && decide (d.time_rate_below_high ≠ 0) &&
      decide (d.memsize > d.dmem_quota) &&
      decide ((d.memsize : ℚ) > d.dmem_decr) &&
      runnable d && !d.trimming_to_quota &&
      !(is_shrink_soft_protected cfg tick d)
    let ids := sort_ids
      (fun a b => decide ((getDom hp a).time_rate_below_high >
                          (getDom hp b).time_rate_below_high))
      (cand.map (·.domain_id))
    trim_round (fun d => max d.memsize_decr d.dmem_quota) hp ids goal

/-- soft_reclaim (sched.cpp lines 2223-2235): quant-roundup of the goal,
the three rounds, returning the heap and the recovered amount. -/
def soft_reclaim (cfg : membalance_config) (tick : ℤ)
    (hp : List domain_info) (goal0 : ℤ) : List domain_info × ℤ :=
  let goal := roundup goal0 cfg.memquant_kbs
  let r1 := soft_reclaim_round_1 cfg tick hp goal
  let r2 := soft_reclaim_round_2 cfg tick r1.1 r1.2
  let r3 := soft_reclaim_round_3 cfg tick r2.1 r2.2
  (r3.1, goal - r3.2)

/-- sched_reserved_soft (sched.cpp lines 2196-2212): when host free memory
is under the soft reserve, schedule soft reclamation of the shortfall and
credit the recovered amount to host_free. -/
def sched_reserved_soft (cfg : membalance_config) (tick : ℤ)
    (hp : List domain_info) (host_free : ℤ) : List domain_info × ℤ :=
  if host_free < cfg.host_reserved_soft then
    let need := cfg.host_reserved_soft - host_free
    let r := soft_reclaim cfg tick hp need
    (r.1, host_free + r.2)
  else (hp, host_free)

/-- hard_reclaim_round_1 (sched.cpp lines 1837-1877). -/
def hard_reclaim_round_1 (hp : List domain_info) (goal : ℤ) :
    List domain_info × ℤ :=
  if goal ≤ 0 then (hp, goal)
  else
    let cand := hp.filter fun d =>
      d.valid_data && decide (d.time_rate_below_low ≠ 0) &&
      runnable d && !d.trimming_to_quota
    let ids := sort_ids
      (fun a b => decide ((getDom hp a).time_rate_below_low >
                          (getDom hp b).time_rate_below_low))
      (cand.map (·.domain_id))
    trim_round (fun d => d.memsize_decr) hp ids goal

/-- hard_reclaim_round_2 (sched.cpp lines 1887-1930). -/
def hard_reclaim_round_2 (hp : List domain_info) (goal : ℤ) :
    List domain_info × ℤ :=
  if goal ≤ 0 then (hp, goal)
  else
    let cand := hp.filter fun d =>
      d.valid_data && decide (d.time_rate_below_high ≠ 0) &&
      decide (d.memsize > d.dmem_quota) && decide (d.memsize = d.memsize0) &&
      runnable d && !d.trimming_to_quota
    let ids := sort_ids
      (fun a b => decide ((getDom hp a).time_rate_below_high >
                          (getDom hp b).time_rate_below_high))
      (cand.map (·.domain_id))
    trim_round (fun d => max d.memsize_decr d.dmem_quota) hp ids goal

/-- hard_reclaim_round_3 (sched.cpp lines 1941-1987). -/
def hard_reclaim_round_3 (cfg : membalance_config) (hp : List domain_info)
    (goal : ℤ) : List domain_info × ℤ :=
  if goal ≤ 0 then (hp, goal)
  else
    let cand := hp.filter fun d =>
      d.valid_data && decide (d.time_rate_below_high ≠ 0) &&
      decide (d.memsize > d.dmem_quota) &&
      runnable d && !d.trimming_to_quota
    let ids := sort_ids
      (fun a b => decide ((getDom hp a).time_rate_below_high >
                          (getDom hp b).time_rate_below_high))
      (cand.map (·.domain_id))
    trim_round (fun d => max (eval_more_decr cfg d) d.dmem_quota) hp ids goal

/-- hard_reclaim_round_4 (sched.cpp lines 2007-2089): domains above quota;
entrants with no valid rate data get their rates zeroed in the heap. -/
def hard_reclaim_round_4 (cfg : membalance_config) (fuel : ℕ)
    (hp : List domain_info) (goal : ℤ) : List domain_info × ℤ :=
  if goal ≤ 0 then (hp, goal)
  else
    let cand := hp.filter fun d =>
      decide (d.memsize > d.dmem_quota) && runnable d && !d.trimming_to_quota
    let hp := cand.foldl
      (fun h d =>
        if d.valid_data then h
        else updDom h d.domain_id fun x =>
          { x with rate := 0, slow_rate := 0, fast_rate := 0 }) hp
    reclaim_loop (fun d => max (eval_more_decr cfg d) d.dmem_quota)
      (fun d => d.dmem_quota) fuel hp (cand.map (·.domain_id)) goal

/-- hard_reclaim_round_5 (sched.cpp lines 2107-2189): domains above
dmem_min; entrants with no valid rate data get their rates zeroed, except
young domains (uptime within startup_time, never dom0), whose rates are
set to rate_high + 1.  upt is the xen_domain_uptime host oracle. -/
def hard_reclaim_round_5 (cfg : membalance_config) (upt : ℤ → ℤ) (fuel : ℕ)
    (hp : List domain_info) (goal : ℤ) : List domain_info × ℤ :=
  if goal ≤ 0 then (hp, goal)
  else
    let cand := hp.filter fun d =>
      decide (d.memsize > d.dmem_min) && runnable d
    let hp := cand.foldl
      (fun h d =>
        if d.valid_data then h
        else if d.domain_id ≠ 0 ∧ d.startup_time ≥ 0 ∧
                upt d.domain_id ≤ d.startup_time then
          updDom h d.domain_id fun x =>
            { x with rate := x.rate_high + 1, slow_rate := x.rate_high + 1,
                     fast_rate := x.rate_high + 1 }
        else updDom h d.domain_id fun x =>
          { x with rate := 0, slow_rate := 0, fast_rate := 0 }) hp
    reclaim_loop (fun d => max (eval_more_decr cfg d) d.dmem_min)
      (fun d => d.dmem_min) fuel hp (cand.map (·.domain_id)) goal

/-- hard_reclaim (sched.cpp lines 1795-1809). -/
def hard_reclaim (cfg : membalance_config) (upt : ℤ → ℤ) (fuel : ℕ)
    (hp : List domain_info) (goal0 : ℤ) : List domain_info × ℤ :=
  let goal := roundup goal0 cfg.memquant_kbs
  let r1 := hard_reclaim_round_1 hp goal
  let r2 := hard_reclaim_round_2 r1.1 r1.2
  let r3 := hard_reclaim_round_3 cfg r2.1 r2.2
  let r4 := hard_reclaim_round_4 cfg fuel r3.1 r3.2
  let r5 := hard_reclaim_round_5 cfg upt fuel r4.1 r4.2
  (r5.1, goal - r5.2)

/-! ### Rebalancing (stage 4) -/

/-- free_allocate (sched.cpp lines 2636-2655): allocate up to need KB of
host free memory at the given expansion force; `none` embeds the fatal_msg
on a negative need.  Returns the allocated amount and the new host_free. -/
def free_allocate (cfg : membalance_config) (host_free : ℤ)
    (expand_force : ℚ) (need : ℤ) : Option (ℤ × ℤ) :=
  if need < 0 then none
  else
    let reserve := if expand_force > resist_force_free_soft
                   then cfg.host_reserved_hard else cfg.host_reserved_soft
    let avail := host_free - reserve
    if avail ≤ 0 then some (0, host_free)
    else
      let allocated := rounddown (min avail need) cfg.memquant_kbs
      some (allocated, host_free - allocated)

/-- The binary search of insert_into_vec_expand (sched.cpp lines
2749-2770) for the insertion position of expansion force f; [start, endp)
is the open-ended form of the C window [start, end]. -/
def bs_expand (hp : List domain_info) (vec : List ℤ) (f : ℚ)
    (start endp : ℕ) : ℕ :=
  if start < endp then
    let mid := (start + (endp - 1)) / 2
    if f ≥ (getDom hp (vec.getD mid 0)).expand_force then
      bs_expand hp vec f start mid
    else bs_expand hp vec f (mid + 1) endp
  else start
termination_by endp - start
decreasing_by all_goals omega

/-- The binary search of insert_into_vec_shrink (sched.cpp lines
2779-2800) for the insertion position of resistance force f. -/
def bs_shrink (hp : List domain_info) (vec : List ℤ) (f : ℚ)
    (start endp : ℕ) : ℕ :=
  if start < endp then
    let mid := (start + (endp - 1)) / 2
    if f ≤ (getDom hp (vec.getD mid 0)).resist_force then
      bs_shrink hp vec f start mid
    else bs_shrink hp vec f (mid + 1) endp
  else start
termination_by endp - start
decreasing_by all_goals omega

/-- insert_into_vec_expand (sched.cpp lines 2749-2770). -/
def insert_into_vec_expand (hp : List domain_info) (vec : List ℤ) (i : ℤ) :
    List ℤ :=
  vec.insertIdx (bs_expand hp vec (getDom hp i).expand_force 0 vec.length) i

/-- insert_into_vec_shrink (sched.cpp lines 2779-2800). -/
def insert_into_vec_shrink (hp : List domain_info) (vec : List ℤ) (i : ℤ) :
    List ℤ :=
  vec.insertIdx (bs_shrink hp vec (getDom hp i).resist_force 0 vec.length) i

/-- rebalance_domains (sched.cpp lines 2662-2740): grow domain dId by up
to need at the cost of the shrink candidates, weakest resistance first.
Each source iteration pops, reprices or retries the head victim; fuel
bounds the iteration count.  Returns the heap and the surviving shrink
vector. -/
def rebalance_domains (rmaxR dId : ℤ) :
    ℕ → List domain_info → ℤ → List ℤ → List domain_info × List ℤ
  | 0, hp, _, vecS => (hp, vecS)
  | _ + 1, hp, _, [] => (hp, [])
  | fuel + 1, hp, need, v :: rest =>
    if need ≤ 0 then (hp, v :: rest)
    else
      let victim := getDom hp v
      if victim.balside = .EXPANDING ∨ victim.memsize ≤ victim.memsize_decr then
        rebalance_domains rmaxR dId fuel hp need rest
      else if (getDom hp dId).expand_force ≤ victim.resist_force then
        (hp, v :: rest)
      else
        let m := if victim.memsize > victim.dmem_quota
                 then max victim.memsize_decr victim.dmem_quota
                 else victim.memsize_decr
        let c_size := size_resist_category victim victim.memsize
        let chunk := min (victim.memsize - m) need
        let hp := updDom hp v fun x =>
          { x with memsize := x.memsize - chunk, balside := .SHRINKING }
        let hp := updDom hp dId fun x => { x with memsize := x.memsize + chunk }
        let need := need - chunk
        let victim2 := getDom hp v
        if victim2.memsize ≤ victim2.memsize_decr then
          rebalance_domains rmaxR dId fuel hp need rest
        else if c_size ≠ size_resist_category victim2 victim2.memsize then
          let hp := updDom hp v fun x =>
            { x with resist_force := resist_force_of rmaxR x }
          rebalance_domains rmaxR dId fuel hp need
            (insert_into_vec_shrink hp rest v)
        else rebalance_domains rmaxR dId fuel hp need (v :: rest)

/-- The record write dom->balside = s. -/
def with_balside (s : balside_t) (x : domain_info) : domain_info :=
  { x with balside := s }

/-- The record write dom->memsize += c. -/
def with_memsize_add (c : ℤ) (x : domain_info) : domain_info :=
  { x with memsize := x.memsize + c }

/-- The record write of eval_expand_force(ctx, dom). -/
def with_expand_force (rmax : ℤ) (x : domain_info) : domain_info :=
  { x with expand_force := expand_force_of rmax x }

/-- The expansion target of one loop round of sched_rebalance (sched.cpp
lines 2549-2554): up to the next category-changing threshold, capped at
memsize_incr. -/
def grow_target (d : domain_info) : ℤ :=
  if d.memsize < d.dmem_min then min d.dmem_min d.memsize_incr
  else if d.memsize < d.dmem_quota then min d.dmem_quota d.memsize_incr
  else d.memsize_incr

/-- The while loop of sched_rebalance (sched.cpp lines 2515-2601).  The
head expansion candidate is grown towards its next category threshold from
free memory, else by shrinking victims; it is then popped, repositioned or
retried.  `none` embeds fatal_msg calls and fuel exhaustion. -/
def rebalance_loop (cfg : membalance_config) (rmaxE rmaxR : ℤ) :
    ℕ → List domain_info → ℤ → List ℤ → List ℤ →
    Option (List domain_info × ℤ)
  | 0, _, _, _, _ => none
  | _ + 1, hp, host_free, [], _ => some (hp, host_free)
  | fuel + 1, hp, host_free, d0 :: restE, vecS =>
    if (getDom hp d0).balside = .SHRINKING then
      rebalance_loop cfg rmaxE rmaxR fuel hp host_free restE vecS
    else
      let hp := updDom hp d0 (with_balside .EXPANDING)
      let dom := getDom hp d0
      let m := grow_target dom
      let need := m - dom.memsize
      let c_size := size_expand_category dom dom.memsize
      match free_allocate cfg host_free dom.expand_force need with
      | none => none
      | some (chunk, host_free) =>
        if chunk ≠ 0 then
          let hp := updDom hp d0 (with_memsize_add chunk)
          let dom2 := getDom hp d0
          if dom2.memsize ≥ dom2.memsize_incr then
            rebalance_loop cfg rmaxE rmaxR fuel hp host_free restE vecS
          else if size_expand_category dom2 dom2.memsize ≠ c_size then
            let hp := updDom hp d0 (with_expand_force rmaxE)
            rebalance_loop cfg rmaxE rmaxR fuel hp host_free
              (insert_into_vec_expand hp restE d0) vecS
          else if dom2.memsize = m then none
          else rebalance_loop cfg rmaxE rmaxR fuel hp host_free (d0 :: restE) vecS
        else
          let mpre := dom.memsize
          let r := rebalance_domains rmaxR d0 fuel hp need vecS
          if (getDom r.1 d0).memsize = mpre then some (r.1, host_free)
          else
            let dom2 := getDom r.1 d0
            if dom2.memsize ≥ dom2.memsize_incr then
              rebalance_loop cfg rmaxE rmaxR fuel r.1 host_free restE r.2
            else if size_expand_category dom2 dom2.memsize ≠ c_size then
              let hp := updDom r.1 d0 (with_expand_force rmaxE)
              rebalance_loop cfg rmaxE rmaxR fuel hp host_free
                (insert_into_vec_expand hp restE d0) r.2
            else if dom2.memsize = mpre then none
            else rebalance_loop cfg rmaxE rmaxR fuel r.1 host_free (d0 :: restE) r.2

/-- sched_rebalance (sched.cpp lines 2427-2602): enumerate candidates,
evaluate both force sets, record expand_force0, weed the two vectors, sort
them and run the expansion loop. -/
def sched_rebalance (cfg : membalance_config) (tick : ℤ) (fuel : ℕ)
    (hp : List domain_info) (host_free : ℤ) :
    Option (List domain_info × ℤ) :=
  let cand := hp.filter fun d => d.valid_data && runnable d && !d.trimming_to_quota
  if cand.length = 0 then some (hp, host_free)
  else
    let ids := cand.map (·.domain_id)
    match expand_rmax hp ids with
    | none => none
    | some rmaxE =>
      let rmaxR := resist_rmax hp ids
      let hp := ids.foldl
        (fun h i => updDom h i fun d =>
          { d with expand_force := expand_force_of rmaxE d,
                   resist_force := resist_force_of rmaxR d }) hp
      let hp := ids.foldl
        (fun h i => updDom h i fun d => { d with expand_force0 := d.expand_force }) hp
      let vecE := ids.filter fun i =>
        let d := getDom hp i
        !(decide (d.expand_force ≤ eps) || decide (d.memsize ≥ d.memsize_incr))
      let vecS := ids.filter fun i =>
        let d := getDom hp i
        !(decide (d.memsize ≤ d.memsize_decr) || is_shrink_soft_protected cfg tick d)
      let vecE := sort_ids
        (fun a b => decide ((getDom hp a).expand_force > (getDom hp b).expand_force)) vecE
      let vecS := sort_ids
        (fun a b => decide ((getDom hp a).resist_force < (getDom hp b).resist_force)) vecS
      rebalance_loop cfg rmaxE rmaxR fuel hp host_free vecE vecS

/-- Stages 3 and 4 of the scheduling tick in sequence: sched_reserved_soft
then sched_rebalance (sched.cpp lines 1214-1219). -/
def sched_stage_3_4 (cfg : membalance_config) (tick : ℤ) (fuel : ℕ)
    (hp : List domain_info) (host_free : ℤ) :
    Option (List domain_info × ℤ) :=
  let s := sched_reserved_soft cfg tick hp host_free
  sched_rebalance cfg tick fuel s.1 s.2

/-! ### The free-memory operator command: sched_freemem -/

/-- calc_avail (sched.cpp lines 3697-3706); slack is the global
xen_free_slack. -/
def calc_avail (cfg : membalance_config) (slack mfree lien : ℤ)
    (above_slack draw_reserved_hard : Bool) : ℤ :=
  let m := if above_slack then mfree - slack else mfree
  let m := if draw_reserved_hard then m else m - cfg.host_reserved_hard
  let m := m - lien
  rounddown (max m 0) cfg.memquant_kbs

/-- eval_memory_lien (sched.cpp lines 4020-4036): positive expansion
deltas of paused managed domains. -/
def eval_memory_lien (hp : List domain_info) : ℤ :=
  hp.foldl
    (fun lien d =>
      if d.flag_paused then lien + max 0 (d.memgoal0 + d.xen_data_size - d.memsize0)
      else lien) 0

/-- Host interface oracle for sched_freemem: the stabilized free-memory
reading of xen_wait_free_memory_stable, the free slack, the
xen_wait_free_memory reading after the shrink orders, and the effect of
the closing collect_domain_memory_info on the heap's host-derived memory
readings. -/
structure freemem_oracle where
  stable_free : ℤ
  slack : ℤ
  waited_free : ℤ
  refresh : List domain_info → List domain_info

/-- Observable outcome of sched_freemem: the returned status character,
the two reported figures, the daemon's domain records, and the
do_shrink_domain orders issued (domain id, target size). -/
structure freemem_result where
  status : Char
  freemem_with_slack : ℤ
  freemem_less_slack : ℤ
  heap : List domain_info
  orders : List (ℤ × ℤ)

/-- sched_freemem (sched.cpp lines 3747-4006).  The input heap carries the
state after the opening collect_domain_memory_info (which only refreshes
host-derived memory readings, modelled as already applied); LONG_MAX/2 on
a 64-bit long is 2^62 - 1; pause_level is memsched_pause_level. -/
def sched_freemem (cfg : membalance_config) (tick : ℤ) (upt : ℤ → ℤ)
    (fuel : ℕ) (pause_level : ℤ) (hp : List domain_info)
    (orc : freemem_oracle) (u_reqamt : ℤ)
    (above_slack draw_reserved_hard must : Bool) : freemem_result :=
  if pause_level = 0 then ⟨'P', 0, 0, hp, []⟩
  else
    let req := u_reqamt
    let xen_free_memory := orc.stable_free
    let xen_free_slack := orc.slack
    let lien := eval_memory_lien hp
    let freeable := hp.foldl
      (fun a d => if d.memsize > d.dmem_min ∧ runnable d
                  then a + (d.memsize - d.dmem_min) else a) 0
    let max_xen_free_memory := xen_free_memory + freeable
    let max_avail :=
      calc_avail cfg xen_free_slack max_xen_free_memory lien above_slack draw_reserved_hard
    let max_avail_with_slack :=
      calc_avail cfg xen_free_slack max_xen_free_memory lien false draw_reserved_hard
    let max_avail_less_slack :=
      calc_avail cfg xen_free_slack max_xen_free_memory lien true draw_reserved_hard
    if req ≤ 0 then ⟨'A', max_avail_with_slack, max_avail_less_slack, hp, []⟩
    else if req ≥ 2 ^ 62 - 1 then ⟨'A', 0, 0, hp, []⟩
    else
      let req := roundup req cfg.memquant_kbs
      if must ∧ req > max_avail then
        ⟨'N', max_avail_with_slack, max_avail_less_slack, hp, []⟩
      else
        let avail := calc_avail cfg xen_free_slack xen_free_memory lien above_slack false
        let avail_with_slack := calc_avail cfg xen_free_slack xen_free_memory lien false false
        let avail_less_slack := calc_avail cfg xen_free_slack xen_free_memory lien true false
        if req ≤ avail then ⟨'A', avail_with_slack, avail_less_slack, hp, []⟩
        else
          let cond_free_slack := if above_slack then xen_free_slack else 0
          let reclaim := req + cfg.host_reserved_hard + cond_free_slack + lien - xen_free_memory
          let reclaim := max reclaim 0
          let reclaim := min reclaim freeable
          let reclaim := roundup reclaim cfg.memquant_kbs
          let r := hard_reclaim cfg upt fuel hp reclaim
          let hp := r.1
          let reclaimed := r.2
          if reclaimed < reclaim ∧ must then
            ⟨'N', avail_with_slack, avail_less_slack, hp, []⟩
          else
            let orders := hp.foldl
              (fun acc d => if d.memsize < d.memgoal0 ∧ runnable d
                            then acc ++ [(d.domain_id, d.memsize)] else acc) []
            let hp := hp.map fun d =>
              if d.memsize < d.memgoal0 ∧ runnable d then
                let d := if d.preshrink_tick ≠ tick
                         then { d with preshrink_tick := tick, preshrink := 0 } else d
                { d with preshrink := d.preshrink + max 0 (d.memsize0 - d.memsize) }
              else d
            let xen_free_memory := orc.waited_free
            let hp := orc.refresh hp
            let lien := eval_memory_lien hp
            ⟨'A', calc_avail cfg orc.slack xen_free_memory lien false draw_reserved_hard,
                  calc_avail cfg orc.slack xen_free_memory lien true draw_reserved_hard,
                  hp, orders⟩

/-! ### Heap-model lemmas -/

/-- A pointer write either leaves the record found at id i unchanged or,
when i is the written id, maps it through f. -/
lemma getDom_updDom (hp : List domain_info) (j i : ℤ)
    (f : domain_info → domain_info)
    (hid : ∀ x, (f x).domain_id = x.domain_id) :
    getDom (updDom hp j f) i = getDom hp i ∨
      (i = j ∧ getDom (updDom hp j f) i = f (getDom hp i)) := by
  unfold getDom updDom
  rw [List.find?_map]
  have hfe : ((fun d : domain_info => d.domain_id == i) ∘
        fun d : domain_info => if d.domain_id == j then f d else d)
      = fun d : domain_info => d.domain_id == i := by
    funext d
    simp only [Function.comp_apply]
    split
    · rw [hid]
    · rfl
  rw [hfe]
  rcases hfind : hp.find? (fun d => d.domain_id == i) with _ | r
  · left; rw [hfind]; rfl
  · have hri : r.domain_id = i := by
      have h := List.find?_some hfind
      exact beq_iff_eq.mp h
    rw [hfind]
    simp only [Option.map_some', Option.getD_some]
    by_cases hj : (r.domain_id == j) = true
    · right
      refine ⟨?_, ?_⟩
      · rw [← hri]; exact beq_iff_eq.mp hj
      · rw [if_pos hj]
    · left
      rw [if_neg hj]

/-- A write to another id leaves the record found at id i unchanged. -/
lemma getDom_updDom_ne (hp : List domain_info) (j i : ℤ)
    (f : domain_info → domain_info)
    (hid : ∀ x, (f x).domain_id = x.domain_id) (hne : i ≠ j) :
    getDom (updDom hp j f) i = getDom hp i := by
  rcases getDom_updDom hp j i f hid with h | ⟨hij, _⟩
  · exact h
  · exact absurd hij hne

/-- A field untouched by the written function is unchanged at every id. -/
lemma proj_getDom_updDom {α : Type} (proj : domain_info → α)
    (hp : List domain_info) (j i : ℤ) (f : domain_info → domain_info)
    (hid : ∀ x, (f x).domain_id = x.domain_id)
    (hproj : ∀ x, proj (f x) = proj x) :
    proj (getDom (updDom hp j f) i) = proj (getDom hp i) := by
  rcases getDom_updDom hp j i f hid with h | ⟨_, h⟩
  · rw [h]
  · rw [h, hproj]

/-- Pointer writes preserve the id sequence of the heap. -/
lemma map_id_updDom (hp : List domain_info) (j : ℤ)
    (f : domain_info → domain_info)
    (hid : ∀ x, (f x).domain_id = x.domain_id) :
    (updDom hp j f).map domain_info.domain_id
      = hp.map domain_info.domain_id := by
  unfold updDom
  rw [List.map_map]
  refine List.map_congr_left ?_
  intro d _
  simp only [Function.comp_apply]
  split
  · rw [hid]
  · rfl

/-- Writing the same record function through a list of ids preserves every
field the function preserves, at every id. -/
lemma proj_getDom_foldl_updDom {α : Type} (proj : domain_info → α)
    (f : domain_info → domain_info)
    (hid : ∀ x, (f x).domain_id = x.domain_id)
    (hproj : ∀ x, proj (f x) = proj x) :
    ∀ (ids : List ℤ) (hp : List domain_info) (i : ℤ),
      proj (getDom (ids.foldl (fun h j => updDom h j f) hp) i)
        = proj (getDom hp i) := by
  intro ids
  induction ids with
  | nil => intro hp i; rfl
  | cons j rest ih =>
    intro hp i
    simp only [List.foldl_cons]
    rw [ih, proj_getDom_updDom proj hp j i f hid hproj]

/-- In a heap with pairwise distinct ids, the lookup of a member's id
returns that member. -/
lemma getDom_eq_of_mem (hp : List domain_info) (r : domain_info)
    (hnd : (hp.map domain_info.domain_id).Nodup) (hr : r ∈ hp) :
    getDom hp r.domain_id = r := by
  induction hp with
  | nil => cases hr
  | cons x xs ih =>
    rw [List.map_cons, List.nodup_cons] at hnd
    rcases List.mem_cons.mp hr with rfl | hr'
    · unfold getDom
      rw [List.find?_cons_of_pos _ (by simp)]
      rfl
    · have hxne : (x.domain_id == r.domain_id) = false := by
        rw [beq_eq_false_iff_ne]
        intro heq
        exact hnd.1 (heq ▸ List.mem_map_of_mem domain_info.domain_id hr')
      unfold getDom
      rw [List.find?_cons_of_neg _ (by simp [hxne])]
      exact ih hnd.2 hr'

/-- When an id occurs in the heap, its lookup is a heap member carrying
that id. -/
lemma getDom_mem (hp : List domain_info) (i : ℤ)
    (h : i ∈ hp.map domain_info.domain_id) :
    getDom hp i ∈ hp ∧ (getDom hp i).domain_id = i := by
  obtain ⟨r, hr, hri⟩ := List.mem_map.mp h
  have hsome : (hp.find? fun d => d.domain_id == i).isSome := by
    rw [List.find?_isSome]
    exact ⟨r, hr, by simp [hri]⟩
  obtain ⟨x, hx⟩ := Option.isSome_iff_exists.mp hsome
  have hmem := List.mem_of_find?_eq_some hx
  have hpx := List.find?_some hx
  unfold getDom
  rw [hx]
  exact ⟨hmem, beq_iff_eq.mp hpx⟩

/-- Membership through stable insertion. -/
lemma mem_ins_sorted (b : ℤ → ℤ → Bool) (i x : ℤ) :
    ∀ l : List ℤ, (x ∈ ins_sorted b i l ↔ x = i ∨ x ∈ l) := by
  intro l
  induction l with
  | nil => simp [ins_sorted]
  | cons a l ih =>
    simp only [ins_sorted]
    split
    · rw [List.mem_cons, ih, List.mem_cons]
      tauto
    · simp [List.mem_cons]

/-- The stable sort is a permutation membership-wise. -/
lemma mem_sort_ids (b : ℤ → ℤ → Bool) (x : ℤ) :
    ∀ l : List ℤ, (x ∈ sort_ids b l ↔ x ∈ l) := by
  intro l
  induction l with
  | nil => simp [sort_ids]
  | cons a l ih =>
    simp only [sort_ids, List.foldr_cons] at ih ⊢
    rw [mem_ins_sorted, ih, List.mem_cons]

/-- insertIdx introduces no element beyond the inserted one. -/
lemma mem_of_insertIdx {α : Type} (a b : α) :
    ∀ (n : ℕ) (l : List α), a ∈ l.insertIdx n b → a = b ∨ a ∈ l := by
  intro n
  induction n with
  | zero =>
    intro l h
    rw [List.insertIdx_zero] at h
    exact List.mem_cons.mp h
  | succ n ih =>
    intro l h
    cases l with
    | nil =>
      simp only [List.insertIdx] at h
      cases h
    | cons x xs =>
      rw [List.insertIdx_succ_cons] at h
      rcases List.mem_cons.mp h with h | h
      · exact Or.inr (h ▸ List.mem_cons_self x xs)
      · rcases ih xs h with h | h
        · exact Or.inl h
        · exact Or.inr (List.mem_cons_of_mem x h)

/-- A trim loop leaves records outside its vector unchanged. -/
lemma trim_round_untouched (target : domain_info → ℤ) (i : ℤ) :
    ∀ (ids : List ℤ) (hp : List domain_info) (goal : ℤ), i ∉ ids →
      getDom (trim_round target hp ids goal).1 i = getDom hp i := by
  intro ids
  induction ids with
  | nil => intro hp goal _; rfl
  | cons j rest ih =>
    intro hp goal hni
    have hij : i ≠ j := fun h => hni (h ▸ List.mem_cons_self j rest)
    have hir : i ∉ rest := fun h => hni (List.mem_cons_of_mem j h)
    simp only [trim_round]
    split_ifs
    · exact getDom_updDom_ne hp j i _ (fun _ => rfl) hij
    · rw [ih _ _ hir]
      exact getDom_updDom_ne hp j i _ (fun _ => rfl) hij
    · exact ih _ _ hir

/-- A trim loop preserves the id sequence of the heap. -/
lemma trim_round_map_id (target : domain_info → ℤ) :
    ∀ (ids : List ℤ) (hp : List domain_info) (goal : ℤ),
      ((trim_round target hp ids goal).1).map domain_info.domain_id
        = hp.map domain_info.domain_id := by
  intro ids
  induction ids with
  | nil => intro hp goal; rfl
  | cons j rest ih =>
    intro hp goal
    simp only [trim_round]
    split_ifs
    · exact map_id_updDom hp j _ (fun _ => rfl)
    · rw [ih]
      exact map_id_updDom hp j _ (fun _ => rfl)
    · exact ih hp goal

/-- A round that filters its candidates leaves every heap member failing
the filter unchanged (ids pairwise distinct). -/
lemma round_skips (pred : domain_info → Bool) (b : ℤ → ℤ → Bool)
    (target : domain_info → ℤ) (hp : List domain_info) (goal : ℤ)
    (d : domain_info) (hnd : (hp.map domain_info.domain_id).Nodup)
    (hd : d ∈ hp) (hpred : pred d = false) :
    getDom (trim_round target hp
      (sort_ids b ((hp.filter pred).map fun x => x.domain_id)) goal).1
        d.domain_id = d := by
  have hni : d.domain_id ∉
      sort_ids b ((hp.filter pred).map fun x => x.domain_id) := by
    rw [mem_sort_ids]
    intro hmem
    obtain ⟨c, hc, hci⟩ := List.mem_map.mp hmem
    have hcf := List.mem_filter.mp hc
    have hcd : c = d := by
      have h1 := getDom_eq_of_mem hp c hnd hcf.1
      have h2 := getDom_eq_of_mem hp d hnd hd
      rw [hci] at h1
      rw [h1] at h2
      exact h2
    rw [hcd, hpred] at hcf
    exact absurd hcf.2 (by simp)
  rw [trim_round_untouched target d.domain_id _ hp goal hni]
  exact getDom_eq_of_mem hp d hnd hd

/-- Soft reclaim round 1 leaves a shrink-protected member unchanged. -/
lemma soft_round_1_protected (cfg : membalance_config) (tick : ℤ)
    (hp : List domain_info) (g : ℤ) (d : domain_info)
    (hnd : (hp.map domain_info.domain_id).Nodup) (hd : d ∈ hp)
    (hprot : is_shrink_soft_protected cfg tick d = true) :
    getDom (soft_reclaim_round_1 cfg tick hp g).1 d.domain_id = d ∧
    ((soft_reclaim_round_1 cfg tick hp g).1).map domain_info.domain_id
      = hp.map domain_info.domain_id := by
  unfold soft_reclaim_round_1
  split
  · exact ⟨getDom_eq_of_mem hp d hnd hd, rfl⟩
  · constructor
    · exact round_skips _ _ _ hp g d hnd hd (by simp [hprot])
    · exact trim_round_map_id _ _ hp g

/-- Soft reclaim round 2 leaves a shrink-protected member unchanged. -/
lemma soft_round_2_protected (cfg : membalance_config) (tick : ℤ)
    (hp : List domain_info) (g : ℤ) (d : domain_info)
    (hnd : (hp.map domain_info.domain_id).Nodup) (hd : d ∈ hp)
    (hprot : is_shrink_soft_protected cfg tick d = true) :
    getDom (soft_reclaim_round_2 cfg tick hp g).1 d.domain_id = d ∧
    ((soft_reclaim_round_2 cfg tick hp g).1).map domain_info.domain_id
      = hp.map domain_info.domain_id := by
  unfold soft_reclaim_round_2
  split
  · exact ⟨getDom_eq_of_mem hp d hnd hd, rfl⟩
  · constructor
    · exact round_skips _ _ _ hp g d hnd hd (by simp [hprot])
    · exact trim_round_map_id _ _ hp g

/-- Soft reclaim round 3 leaves a shrink-protected member unchanged. -/
lemma soft_round_3_protected (cfg : membalance_config) (tick : ℤ)
    (hp : List domain_info) (g : ℤ) (d : domain_info)
    (hnd : (hp.map domain_info.domain_id).Nodup) (hd : d ∈ hp)
    (hprot : is_shrink_soft_protected cfg tick d = true) :
    getDom (soft_reclaim_round_3 cfg tick hp g).1 d.domain_id = d ∧
    ((soft_reclaim_round_3 cfg tick hp g).1).map domain_info.domain_id
      = hp.map domain_info.domain_id := by
  unfold soft_reclaim_round_3
  split
  · exact ⟨getDom_eq_of_mem hp d hnd hd, rfl⟩
  · constructor
    · exact round_skips _ _ _ hp g d hnd hd (by simp [hprot])
    · exact trim_round_map_id _ _ hp g

/-- The whole soft-reserve stage leaves a shrink-protected member
unchanged. -/
lemma sched_reserved_soft_protected (cfg : membalance_config) (tick : ℤ)
    (hp : List domain_info) (hf : ℤ) (d : domain_info)
    (hnd : (hp.map domain_info.domain_id).Nodup) (hd : d ∈ hp)
    (hprot : is_shrink_soft_protected cfg tick d = true) :
    getDom (sched_reserved_soft cfg tick hp hf).1 d.domain_id = d ∧
    ((sched_reserved_soft cfg tick hp hf).1).map domain_info.domain_id
      = hp.map domain_info.domain_id := by
  unfold sched_reserved_soft
  split
  · simp only [soft_reclaim]
    obtain ⟨h1g, h1m⟩ := soft_round_1_protected cfg tick hp
      (roundup (cfg.host_reserved_soft - hf) cfg.memquant_kbs) d hnd hd hprot
    set r1 := soft_reclaim_round_1 cfg tick hp
      (roundup (cfg.host_reserved_soft - hf) cfg.memquant_kbs) with hr1
    have hnd1 : (r1.1.map domain_info.domain_id).Nodup := by rw [h1m]; exact hnd
    have hd1 : d ∈ r1.1 := by
      have hidmem : d.domain_id ∈ r1.1.map domain_info.domain_id := by
        rw [h1m]; exact List.mem_map_of_mem domain_info.domain_id hd
      have hgm := getDom_mem r1.1 d.domain_id hidmem
      rw [h1g] at hgm
      exact hgm.1
    obtain ⟨h2g, h2m⟩ := soft_round_2_protected cfg tick r1.1 r1.2 d hnd1 hd1 hprot
    set r2 := soft_reclaim_round_2 cfg tick r1.1 r1.2 with hr2
    have hnd2 : (r2.1.map domain_info.domain_id).Nodup := by rw [h2m]; exact hnd1
    have hd2 : d ∈ r2.1 := by
      have hidmem : d.domain_id ∈ r2.1.map domain_info.domain_id := by
        rw [h2m, h1m]; exact List.mem_map_of_mem domain_info.domain_id hd
      have hgm := getDom_mem r2.1 d.domain_id hidmem
      rw [h2g] at hgm
      exact hgm.1
    obtain ⟨h3g, h3m⟩ := soft_round_3_protected cfg tick r2.1 r2.2 d hnd2 hd2 hprot
    exact ⟨h3g, by rw [h3m, h2m, h1m]⟩
  · exact ⟨getDom_eq_of_mem hp d hnd hd, rfl⟩

/-- A successful free allocation is nonnegative and is exactly what
host_free drops by. -/
lemma free_allocate_some (cfg : membalance_config) (hf : ℤ) (F : ℚ)
    (need c hf2 : ℤ) (hq : 0 < cfg.memquant_kbs)
    (h : free_allocate cfg hf F need = some (c, hf2)) :
    0 ≤ c ∧ hf2 = hf - c := by
  unfold free_allocate at h
  split at h
  · exact Option.noConfusion h
  · next hneed =>
    simp only [] at h
    set reserve := if F > resist_force_free_soft then cfg.host_reserved_hard
                   else cfg.host_reserved_soft with hres
    split at h
    · simp only [Option.some.injEq, Prod.mk.injEq] at h
      obtain ⟨h1, h2⟩ := h
      omega
    · next havail =>
      simp only [Option.some.injEq, Prod.mk.injEq] at h
      obtain ⟨h1, h2⟩ := h
      have hcnn : 0 ≤ rounddown (min (hf - reserve) need) cfg.memquant_kbs := by
        unfold rounddown
        refine mul_nonneg (Int.tdiv_nonneg ?_ ?_) ?_
        · refine le_min ?_ ?_ <;> omega
        · omega
        · omega
      omega

/-- rebalance_domains only shrinks its shrink candidates: the record at
any id outside the vector never loses memory, and the surviving vector
holds no new ids. -/
lemma rebalance_domains_untouched (rmaxR dId i : ℤ) :
    ∀ (fuel : ℕ) (hp : List domain_info) (need : ℤ) (vecS : List ℤ),
      i ∉ vecS →
      (getDom (rebalance_domains rmaxR dId fuel hp need vecS).1 i).memsize
        ≥ (getDom hp i).memsize ∧
      ∀ j ∈ (rebalance_domains rmaxR dId fuel hp need vecS).2, j ∈ vecS := by
  intro fuel
  induction fuel with
  | zero =>
    intro hp need vecS hi
    exact ⟨le_refl _, fun j hj => hj⟩
  | succ n ih =>
    intro hp need vecS hi
    cases vecS with
    | nil =>
      simp only [rebalance_domains]
      exact ⟨le_refl _, fun j hj => hj⟩
    | cons v rest =>
      have hiv : i ≠ v := fun hx => hi (hx ▸ List.mem_cons_self v rest)
      have hir : i ∉ rest := fun hx => hi (List.mem_cons_of_mem v hx)
      simp only [rebalance_domains]
      by_cases hneed : need ≤ 0
      · rw [if_pos hneed]
        exact ⟨le_refl _, fun j hj => hj⟩
      · rw [if_neg hneed]
        by_cases hskip : (getDom hp v).balside = balside_t.EXPANDING ∨
            (getDom hp v).memsize ≤ (getDom hp v).memsize_decr
        · rw [if_pos hskip]
          obtain ⟨h1, h2⟩ := ih hp need rest hir
          exact ⟨h1, fun j hj => List.mem_cons_of_mem v (h2 j hj)⟩
        · rw [if_neg hskip]
          by_cases hres : (getDom hp dId).expand_force ≤ (getDom hp v).resist_force
          · rw [if_pos hres]
            exact ⟨le_refl _, fun j hj => hj⟩
          · rw [if_neg hres]
            rw [not_or] at hskip
            obtain ⟨hskipA, hskipB⟩ := hskip
            set m := if (getDom hp v).memsize > (getDom hp v).dmem_quota
                then max (getDom hp v).memsize_decr (getDom hp v).dmem_quota
                else (getDom hp v).memsize_decr with hm
            set chunk := min ((getDom hp v).memsize - m) need with hchunk
            set hp1 := updDom hp v (fun x =>
              { x with memsize := x.memsize - chunk,
                       balside := balside_t.SHRINKING }) with hhp1
            set hp2 := updDom hp1 dId (fun x =>
              { x with memsize := x.memsize + chunk }) with hhp2
            have hmlt : m < (getDom hp v).memsize := by
              rw [hm]; split <;> omega
            have hcnn : 0 ≤ chunk := by
              rw [hchunk]
              refine le_min ?_ ?_ <;> omega
            have hstep1 : (getDom hp1 i).memsize = (getDom hp i).memsize := by
              rw [hhp1]
              exact congrArg domain_info.memsize
                (getDom_updDom_ne hp v i _ (fun _ => rfl) hiv)
            have hstep2 : (getDom hp2 i).memsize ≥ (getDom hp1 i).memsize := by
              rw [hhp2]
              rcases getDom_updDom hp1 dId i
                  (fun x => { x with memsize := x.memsize + chunk })
                  (fun _ => rfl) with hh | ⟨_, hh⟩
              · rw [hh]
              · rw [hh]
                exact le_add_of_nonneg_right hcnn
            by_cases hdone : (getDom hp2 v).memsize ≤ (getDom hp2 v).memsize_decr
            · rw [if_pos hdone]
              obtain ⟨h1, h2⟩ := ih hp2 (need - chunk) rest hir
              exact ⟨by omega, fun j hj => List.mem_cons_of_mem v (h2 j hj)⟩
            · rw [if_neg hdone]
              by_cases hcat :
                  size_resist_category (getDom hp v) (getDom hp v).memsize ≠
                  size_resist_category (getDom hp2 v) (getDom hp2 v).memsize
              · rw [if_pos hcat]
                set hp3 := updDom hp2 v (fun x =>
                  { x with resist_force := resist_force_of rmaxR x }) with hhp3
                have hstep3 : (getDom hp3 i).memsize = (getDom hp2 i).memsize := by
                  rw [hhp3]
                  exact proj_getDom_updDom domain_info.memsize hp2 v i
                    (fun x => { x with resist_force := resist_force_of rmaxR x })
                    (fun _ => rfl) (fun _ => rfl)
                have hins : i ∉ insert_into_vec_shrink hp3 rest v := by
                  intro hmem
                  unfold insert_into_vec_shrink at hmem
                  rcases mem_of_insertIdx i v _ rest hmem with hx | hx
                  · exact hiv hx
                  · exact hir hx
                obtain ⟨h1, h2⟩ := ih hp3 (need - chunk)
                  (insert_into_vec_shrink hp3 rest v) hins
                refine ⟨by omega, fun j hj => ?_⟩
                have hj2 := h2 j hj
                unfold insert_into_vec_shrink at hj2
                rcases mem_of_insertIdx j v _ rest hj2 with hx | hx
                · exact hx ▸ List.mem_cons_self v rest
                · exact List.mem_cons_of_mem v hx
              · rw [if_neg hcat]
                obtain ⟨h1, h2⟩ := ih hp2 (need - chunk) (v :: rest) hi
                exact ⟨by omega, h2⟩

/-- The rebalancing loop never reduces the memory of a record whose id is
outside the shrink vector (it can only grow it by free or transferred
allocations). -/
lemma rebalance_loop_untouched (cfg : membalance_config) (rmaxE rmaxR i : ℤ)
    (hq : 0 < cfg.memquant_kbs) :
    ∀ (fuel : ℕ) (hp : List domain_info) (hf : ℤ) (vecE vecS : List ℤ)
      (hp2 : List domain_info) (hf2 : ℤ), i ∉ vecS →
      rebalance_loop cfg rmaxE rmaxR fuel hp hf vecE vecS = some (hp2, hf2) →
      (getDom hp2 i).memsize ≥ (getDom hp i).memsize := by
  intro fuel
  induction fuel with
  | zero =>
    intro hp hf vecE vecS hp2 hf2 hi h
    exact absurd h (by simp [rebalance_loop])
  | succ n ih =>
    intro hp hf vecE vecS hp2 hf2 hi h
    cases vecE with
    | nil =>
      simp only [rebalance_loop, Option.some.injEq, Prod.mk.injEq] at h
      rw [← h.1]
    | cons d0 restE =>
      simp only [rebalance_loop] at h
      split at h
      · exact ih hp hf restE vecS hp2 hf2 hi h
      · set hp1 := updDom hp d0 (with_balside balside_t.EXPANDING) with hhp1
        have hm1 : (getDom hp1 i).memsize = (getDom hp i).memsize := by
          rw [hhp1]
          exact proj_getDom_updDom domain_info.memsize hp d0 i
            (with_balside balside_t.EXPANDING) (fun _ => rfl) (fun _ => rfl)
        set dom1 := getDom hp1 d0 with hdom1
        split at h
        · exact Option.noConfusion h
        · rename_i chunk hfX heq
          obtain ⟨hcnn, hhfX⟩ := free_allocate_some cfg hf _ _ chunk hfX hq heq
          split at h
          · set hpA := updDom hp1 d0 (with_memsize_add chunk) with hhpA
            have hmA : (getDom hpA i).memsize ≥ (getDom hp1 i).memsize := by
              rw [hhpA]
              rcases getDom_updDom hp1 d0 i (with_memsize_add chunk)
                  (fun _ => rfl) with hh | ⟨_, hh⟩
              · rw [hh]
              · rw [hh]
                exact le_add_of_nonneg_right hcnn
            split at h
            · have hrec := ih hpA hfX restE vecS hp2 hf2 hi h
              omega
            · split at h
              · set hpB := updDom hpA d0 (with_expand_force rmaxE) with hhpB
                have hmB : (getDom hpB i).memsize = (getDom hpA i).memsize := by
                  rw [hhpB]
                  exact proj_getDom_updDom domain_info.memsize hpA d0 i
                    (with_expand_force rmaxE) (fun _ => rfl) (fun _ => rfl)
                have hrec := ih hpB hfX _ vecS hp2 hf2 hi h
                omega
              · split at h
                · exact Option.noConfusion h
                · have hrec := ih hpA hfX _ vecS hp2 hf2 hi h
                  omega
          · obtain ⟨hrd, hrsub⟩ := rebalance_domains_untouched rmaxR d0 i n hp1
              (grow_target dom1 - dom1.memsize) vecS hi
            set rb := rebalance_domains rmaxR d0 n hp1
              (grow_target dom1 - dom1.memsize) vecS with hrb
            have hinotrb : i ∉ rb.2 := fun hmem => hi (hrsub i hmem)
            split at h
            · simp only [Option.some.injEq, Prod.mk.injEq] at h
              rw [← h.1]
              omega
            · split at h
              · have hrec := ih rb.1 hfX restE rb.2 hp2 hf2 hinotrb h
                omega
              · split at h
                · set hpB := updDom rb.1 d0 (with_expand_force rmaxE) with hhpB
                  have hmB : (getDom hpB i).memsize = (getDom rb.1 i).memsize := by
                    rw [hhpB]
                    exact proj_getDom_updDom domain_info.memsize rb.1 d0 i
                      (with_expand_force rmaxE) (fun _ => rfl) (fun _ => rfl)
                  have hrec := ih hpB hfX _ rb.2 hp2 hf2 hinotrb h
                  omega
                · have hrec := ih rb.1 hfX _ rb.2 hp2 hf2 hinotrb h
                  omega

/-! ### The claims about the rebalancing stage and the operator command -/

/-- C6.  free_allocate with a nonnegative request grants exactly
min(need, host_free - reserve) rounded down to the allocation quantum (0
when host_free - reserve ≤ 0), where the reserve is host_reserved_hard
when the expansion force exceeds resist_force_free_soft = 45 and
host_reserved_soft otherwise, and host_free drops by exactly the granted
amount. -/
theorem free_allocate_grant (cfg : membalance_config) (host_free : ℤ)
    (f : ℚ) (need : ℤ) (h : 0 ≤ need) :
    free_allocate cfg host_free f need =
      (let reserve := if f > resist_force_free_soft then cfg.host_reserved_hard
                      else cfg.host_reserved_soft
       let grant := if host_free - reserve ≤ 0 then 0
                    else rounddown (min need (host_free - reserve)) cfg.memquant_kbs
       some (grant, host_free - grant)) := by
  unfold free_allocate
  rw [if_neg (not_lt.mpr h)]
  simp only []
  split <;> split
  · simp
  · rw [min_comm]
  · simp
  · rw [min_comm]

/-- Witness: free_allocate_grant at the default configuration (quant 4,
both reserves 0), host_free 1000, force 50, need 123 grants 120 KB. -/
theorem free_allocate_grant_witness :
    0 ≤ (123 : ℤ) ∧ free_allocate cfg_c1 1000 50 123 = some (120, 880) :=
  ⟨by decide, by rw [free_allocate_grant cfg_c1 1000 50 123 (by decide)]; decide⟩

/-- C8.  When the scheduler is not paused (memsched_pause_level = 0),
sched_freemem answers status 'P' with both reported free-memory figures 0,
issues no shrink orders and leaves the domain records untouched. -/
theorem sched_freemem_unpaused (cfg : membalance_config) (tick : ℤ)
    (upt : ℤ → ℤ) (fuel : ℕ) (pl : ℤ) (hp : List domain_info)
    (orc : freemem_oracle) (req : ℤ) (abv drw mst : Bool) (h : pl = 0) :
    sched_freemem cfg tick upt fuel pl hp orc req abv drw mst =
      ⟨'P', 0, 0, hp, []⟩ := by
  subst h
  unfold sched_freemem
  rw [if_pos rfl]

/-- Oracle fixture: all host readings zero, the closing collect leaves the
records as they are. -/
def orc_c8 : freemem_oracle := ⟨0, 0, 0, id⟩

/-- Witness: sched_freemem_unpaused on a concrete 1 GB request with pause
level 0. -/
theorem sched_freemem_unpaused_witness :
    sched_freemem cfg_c1 7 (fun _ => 0) 3 0 [dom0] orc_c8 1048576 true false true =
      ⟨'P', 0, 0, [dom0], []⟩ :=
  sched_freemem_unpaused cfg_c1 7 (fun _ => 0) 3 0 [dom0] orc_c8 1048576
    true false true rfl

/-- C4 (amended).  rebalance_domains never takes any domain below its
per-tick shrink floor: the record at any id ends no lower than
min(initial memsize, memsize_decr).  In particular a victim shrunk by its
full dmem_decr allowance (memsize down to memsize_decr) is dropped from
the shrink vector and never shrunk further this call — but its resist
force is not pinned to 500 (see the counterexample). -/
theorem rebalance_no_overshrink (rmaxR dId : ℤ) :
    ∀ (fuel : ℕ) (hp : List domain_info) (need : ℤ) (vecS : List ℤ) (i : ℤ),
      min (getDom hp i).memsize (getDom hp i).memsize_decr ≤
        (getDom (rebalance_domains rmaxR dId fuel hp need vecS).1 i).memsize := by
  intro fuel
  induction fuel with
  | zero =>
    intro hp need vecS i
    exact min_le_left _ _
  | succ n ih =>
    intro hp need vecS i
    cases vecS with
    | nil =>
      simp only [rebalance_domains]
      exact min_le_left _ _
    | cons v rest =>
      simp only [rebalance_domains]
      by_cases hneed : need ≤ 0
      · rw [if_pos hneed]
        exact min_le_left _ _
      · rw [if_neg hneed]
        by_cases hskip : (getDom hp v).balside = balside_t.EXPANDING ∨
            (getDom hp v).memsize ≤ (getDom hp v).memsize_decr
        · rw [if_pos hskip]
          exact ih hp need rest i
        · rw [if_neg hskip]
          by_cases hres : (getDom hp dId).expand_force ≤ (getDom hp v).resist_force
          · rw [if_pos hres]
            exact min_le_left _ _
          · rw [if_neg hres]
            rw [not_or] at hskip
            obtain ⟨hskipA, hskipB⟩ := hskip
            set m := if (getDom hp v).memsize > (getDom hp v).dmem_quota
                then max (getDom hp v).memsize_decr (getDom hp v).dmem_quota
                else (getDom hp v).memsize_decr with hm
            set chunk := min ((getDom hp v).memsize - m) need with hchunk
            set hp1 := updDom hp v (fun x =>
              { x with memsize := x.memsize - chunk,
                       balside := balside_t.SHRINKING }) with hhp1
            set hp2 := updDom hp1 dId (fun x =>
              { x with memsize := x.memsize + chunk }) with hhp2
            have hmlt : m < (getDom hp v).memsize := by
              rw [hm]; split <;> omega
            have hmdec : (getDom hp v).memsize_decr ≤ m := by
              rw [hm]; split <;> omega
            have hcle : chunk ≤ (getDom hp v).memsize - m := by
              rw [hchunk]; exact min_le_left _ _
            have hcnn : 0 ≤ chunk := by
              rw [hchunk]
              refine le_min ?_ ?_ <;> omega
            have hdecr1 : (getDom hp1 i).memsize_decr = (getDom hp i).memsize_decr := by
              rw [hhp1]
              exact proj_getDom_updDom domain_info.memsize_decr hp v i _
                (fun _ => rfl) (fun _ => rfl)
            have hdecr2 : (getDom hp2 i).memsize_decr = (getDom hp1 i).memsize_decr := by
              rw [hhp2]
              exact proj_getDom_updDom domain_info.memsize_decr hp1 dId i _
                (fun _ => rfl) (fun _ => rfl)
            have hms1 : min (getDom hp i).memsize (getDom hp i).memsize_decr
                ≤ (getDom hp1 i).memsize := by
              rw [hhp1]
              rcases getDom_updDom hp v i
                  (fun x =>
                    { x with memsize := x.memsize - chunk,
                             balside := balside_t.SHRINKING })
                  (fun _ => rfl) with hh | ⟨hiv, hh⟩
              · rw [hh]; exact min_le_left _ _
              · rw [hh]
                show _ ≤ (getDom hp i).memsize - chunk
                subst hiv
                omega
            have hms2 : (getDom hp1 i).memsize ≤ (getDom hp2 i).memsize := by
              rw [hhp2]
              rcases getDom_updDom hp1 dId i
                  (fun x => { x with memsize := x.memsize + chunk })
                  (fun _ => rfl) with hh | ⟨_, hh⟩
              · rw [hh]
              · rw [hh]
                show _ ≤ (getDom hp1 i).memsize + chunk
                omega
            by_cases hdone : (getDom hp2 v).memsize ≤ (getDom hp2 v).memsize_decr
            · rw [if_pos hdone]
              have hih := ih hp2 (need - chunk) rest i
              omega
            · rw [if_neg hdone]
              by_cases hcat :
                  size_resist_category (getDom hp v) (getDom hp v).memsize ≠
                  size_resist_category (getDom hp2 v) (getDom hp2 v).memsize
              · rw [if_pos hcat]
                set hp3 := updDom hp2 v (fun x =>
                  { x with resist_force := resist_force_of rmaxR x }) with hhp3
                have hdecr3 : (getDom hp3 i).memsize_decr
                    = (getDom hp2 i).memsize_decr := by
                  rw [hhp3]
                  exact proj_getDom_updDom domain_info.memsize_decr hp2 v i _
                    (fun _ => rfl) (fun _ => rfl)
                have hms3 : (getDom hp3 i).memsize = (getDom hp2 i).memsize := by
                  rw [hhp3]
                  exact proj_getDom_updDom domain_info.memsize hp2 v i _
                    (fun _ => rfl) (fun _ => rfl)
                have hih := ih hp3 (need - chunk)
                  (insert_into_vec_shrink hp3 rest v) i
                omega
              · rw [if_neg hcat]
                have hih := ih hp2 (need - chunk) (v :: rest) i
                omega

/-- Expanding domain of the C4 counterexample. -/
def dom_c4a : domain_info :=
  { dom0 with domain_id := 1, memsize := 5000, expand_force := 100 }

/-- Victim domain of the C4 counterexample: one chunk of rebalancing takes
it from 2000 KB down to its full-allowance floor memsize_decr = 1000. -/
def dom_c4b : domain_info :=
  { dom0 with domain_id := 2, memsize := 2000, memsize_decr := 1000,
              dmem_quota := 3000, resist_force := 30 }

/-- C4 counterexample: after rebalance_domains shrinks the victim by its
full dmem_decr allowance (memsize reaches memsize_decr), the victim is
dropped from the shrink vector but its resist force remains 30 — it is
not pinned to 500 as claimed. -/
theorem rebalance_full_shrink_cex :
    ((getDom (rebalance_domains 0 1 5 [dom_c4a, dom_c4b] 1000 [2]).1 2).memsize ≤
      (getDom (rebalance_domains 0 1 5 [dom_c4a, dom_c4b] 1000 [2]).1 2).memsize_decr) ∧
    (getDom (rebalance_domains 0 1 5 [dom_c4a, dom_c4b] 1000 [2]).1 2).resist_force ≠ 500 ∧
    (rebalance_domains 0 1 5 [dom_c4a, dom_c4b] 1000 [2]).2 = [] := by
  refine ⟨by decide, by decide, by decide⟩

/-- C5.  When the head expansion candidate d0 cannot be served from free
memory (host free memory within both reserves) and its expansion force
does not exceed the resist force of the weakest eligible shrink candidate
v at the head of the shrink vector, rebalancing ends at once: the loop
returns with every scheduled memsize exactly as it was (only d0's balside
was marked EXPANDING). -/
theorem rebalance_head_resist_stops (cfg : membalance_config)
    (rmaxE rmaxR : ℤ) (fuel : ℕ) (hp : List domain_info) (hf : ℤ)
    (d0 v : ℤ) (restE restS : List ℤ)
    (hvd : v ≠ d0)
    (hside : (getDom hp d0).balside ≠ balside_t.SHRINKING)
    (hincr : (getDom hp d0).memsize ≤ (getDom hp d0).memsize_incr)
    (hfh : hf ≤ cfg.host_reserved_hard)
    (hfs : hf ≤ cfg.host_reserved_soft)
    (hveb : (getDom hp v).balside ≠ balside_t.EXPANDING)
    (hvdec : (getDom hp v).memsize_decr < (getDom hp v).memsize)
    (hres : (getDom hp d0).expand_force ≤ (getDom hp v).resist_force) :
    ∃ hp2, rebalance_loop cfg rmaxE rmaxR (fuel + 1) hp hf
        (d0 :: restE) (v :: restS) = some (hp2, hf) ∧
      ∀ i, (getDom hp2 i).memsize = (getDom hp i).memsize := by
  have hPms : (getDom (updDom hp d0 (with_balside balside_t.EXPANDING)) d0).memsize
      = (getDom hp d0).memsize :=
    proj_getDom_updDom domain_info.memsize hp d0 d0
      (with_balside balside_t.EXPANDING) (fun _ => rfl) (fun _ => rfl)
  have hPmin : (getDom (updDom hp d0 (with_balside balside_t.EXPANDING)) d0).dmem_min
      = (getDom hp d0).dmem_min :=
    proj_getDom_updDom domain_info.dmem_min hp d0 d0
      (with_balside balside_t.EXPANDING) (fun _ => rfl) (fun _ => rfl)
  have hPquota : (getDom (updDom hp d0 (with_balside balside_t.EXPANDING)) d0).dmem_quota
      = (getDom hp d0).dmem_quota :=
    proj_getDom_updDom domain_info.dmem_quota hp d0 d0
      (with_balside balside_t.EXPANDING) (fun _ => rfl) (fun _ => rfl)
  have hPincr : (getDom (updDom hp d0 (with_balside balside_t.EXPANDING)) d0).memsize_incr
      = (getDom hp d0).memsize_incr :=
    proj_getDom_updDom domain_info.memsize_incr hp d0 d0
      (with_balside balside_t.EXPANDING) (fun _ => rfl) (fun _ => rfl)
  have hPef : (getDom (updDom hp d0 (with_balside balside_t.EXPANDING)) d0).expand_force
      = (getDom hp d0).expand_force :=
    proj_getDom_updDom domain_info.expand_force hp d0 d0
      (with_balside balside_t.EXPANDING) (fun _ => rfl) (fun _ => rfl)
  refine ⟨updDom hp d0 (with_balside balside_t.EXPANDING), ?_, ?_⟩
  swap
  · intro i
    exact proj_getDom_updDom domain_info.memsize hp d0 i
      (with_balside balside_t.EXPANDING) (fun _ => rfl) (fun _ => rfl)
  simp only [rebalance_loop]
  rw [if_neg hside]
  set hp1 := updDom hp d0 (with_balside balside_t.EXPANDING) with hhp1
  have hneed : 0 ≤ grow_target (getDom hp1 d0) - (getDom hp1 d0).memsize := by
    unfold grow_target
    rw [hPms, hPmin, hPquota, hPincr]
    split_ifs <;> omega
  have hfa : free_allocate cfg hf (getDom hp1 d0).expand_force
      (grow_target (getDom hp1 d0) - (getDom hp1 d0).memsize) = some (0, hf) := by
    unfold free_allocate
    rw [if_neg (not_lt.mpr hneed)]
    have hav : hf - (if (getDom hp1 d0).expand_force > resist_force_free_soft
        then cfg.host_reserved_hard else cfg.host_reserved_soft) ≤ 0 := by
      split <;> omega
    rw [if_pos hav]
  split
  · next heq =>
    rw [hfa] at heq
    exact Option.noConfusion heq
  · next chunk hfX heq =>
    rw [hfa] at heq
    simp only [Option.some.injEq, Prod.mk.injEq] at heq
    obtain ⟨h0, hX⟩ := heq
    subst h0
    subst hX
    rw [if_neg (fun hx => hx rfl)]
    have hrd : rebalance_domains rmaxR d0 fuel hp1
        (grow_target (getDom hp1 d0) - (getDom hp1 d0).memsize) (v :: restS)
        = (hp1, v :: restS) := by
      cases fuel with
      | zero => simp only [rebalance_domains]
      | succ k =>
        simp only [rebalance_domains]
        by_cases hng : grow_target (getDom hp1 d0) - (getDom hp1 d0).memsize ≤ 0
        · rw [if_pos hng]
        · rw [if_neg hng]
          have hv1 : getDom hp1 v = getDom hp v := by
            rw [hhp1]
            exact getDom_updDom_ne hp d0 v (with_balside balside_t.EXPANDING)
              (fun _ => rfl) hvd
          rw [hv1, hPef]
          rw [if_neg (not_or.mpr ⟨hveb, not_le.mpr hvdec⟩)]
          rw [if_pos hres]
    rw [hrd]
    rw [if_pos rfl]

/-- Expansion candidate of the C5 witness. -/
def dom_c5e : domain_info :=
  { dom0 with domain_id := 1, memsize := 1000, memsize_incr := 2000,
              dmem_min := 500, dmem_quota := 800, expand_force := 50 }

/-- Shrink candidate of the C5 witness: weakest but still resisting more
than the requester pushes. -/
def dom_c5v : domain_info :=
  { dom0 with domain_id := 2, memsize := 3000, memsize_decr := 2000,
              resist_force := 60 }

/-- Witness: rebalance_head_resist_stops on a concrete two-domain heap
with no allocatable free memory and expand force 50 ≤ resist force 60. -/
theorem rebalance_head_resist_stops_witness :
    ∃ hp2, rebalance_loop cfg_c1 0 0 (2 + 1) [dom_c5e, dom_c5v] 0 [1] [2]
        = some (hp2, 0) ∧
      ∀ i, (getDom hp2 i).memsize = (getDom [dom_c5e, dom_c5v] i).memsize :=
  rebalance_head_resist_stops cfg_c1 0 0 2 [dom_c5e, dom_c5v] 0 1 2 [] []
    (by decide) (by decide) (by decide) (by decide) (by decide) (by decide)
    (by decide) (by decide)

/-- C3.  A domain expanded at tick t (last_expand_tick = t) is
shrink-protected at tick t+1: the soft-reserve stage (all three rounds)
leaves its record unchanged, the rebalancing stage never reduces its
scheduled memsize, and with shrink_protection_time = 1 the protection has
lapsed by tick t+2, making it eligible for soft shrinking again. -/
theorem shrink_protection (cfg : membalance_config) (t : ℤ) (fuel : ℕ)
    (hp : List domain_info) (hf : ℤ) (d : domain_info)
    (hp2 : List domain_info) (hf2 : ℤ)
    (hq : 0 < cfg.memquant_kbs)
    (hnd : (hp.map domain_info.domain_id).Nodup)
    (hd : d ∈ hp)
    (hexp : d.last_expand_tick = t)
    (hpt : cfg.shrink_protection_time = 1)
    (hrun : sched_stage_3_4 cfg (t + 1) fuel hp hf = some (hp2, hf2)) :
    (getDom (sched_reserved_soft cfg (t + 1) hp hf).1 d.domain_id).memsize
      = d.memsize ∧
    (getDom hp2 d.domain_id).memsize ≥ d.memsize ∧
    is_shrink_soft_protected cfg (t + 2) d = false := by
  have hprot : is_shrink_soft_protected cfg (t + 1) d = true := by
    unfold is_shrink_soft_protected
    rw [hexp, hpt]
    exact decide_eq_true (by omega)
  obtain ⟨hg, hmap⟩ := sched_reserved_soft_protected cfg (t + 1) hp hf d hnd hd hprot
  refine ⟨by rw [hg], ?_, ?_⟩
  swap
  · unfold is_shrink_soft_protected
    rw [hexp, hpt]
    exact decide_eq_false (by omega)
  · unfold sched_stage_3_4 at hrun
    simp only [] at hrun
    set s1 := (sched_reserved_soft cfg (t + 1) hp hf).1 with hs1
    set s2 := (sched_reserved_soft cfg (t + 1) hp hf).2 with hs2
    simp only [sched_rebalance] at hrun
    split at hrun
    · simp only [Option.some.injEq, Prod.mk.injEq] at hrun
      rw [← hrun.1, hg]
    · split at hrun
      · exact Option.noConfusion hrun
      · rename_i rmaxE hrmax
        set cand := s1.filter
          (fun x => x.valid_data && runnable x && !x.trimming_to_quota) with hcand
        set ids := cand.map (fun x => x.domain_id) with hids
        set rmR := resist_rmax s1 ids with hrmR
        set hpF1 := ids.foldl (fun h i => updDom h i fun x =>
          { x with expand_force := expand_force_of rmaxE x,
                   resist_force := resist_force_of rmR x }) s1 with hhpF1
        set hpF := ids.foldl (fun h i => updDom h i fun x =>
          { x with expand_force0 := x.expand_force }) hpF1 with hhpF
        have hms : (getDom hpF d.domain_id).memsize = d.memsize := by
          have e1 := proj_getDom_foldl_updDom domain_info.memsize
            (fun x => { x with expand_force0 := x.expand_force })
            (fun _ => rfl) (fun _ => rfl) ids hpF1 d.domain_id
          have e2 := proj_getDom_foldl_updDom domain_info.memsize
            (fun x => { x with expand_force := expand_force_of rmaxE x,
                               resist_force := resist_force_of rmR x })
            (fun _ => rfl) (fun _ => rfl) ids s1 d.domain_id
          rw [hhpF, e1, hhpF1, e2, hg]
        have hlet : (getDom hpF d.domain_id).last_expand_tick = t := by
          have e1 := proj_getDom_foldl_updDom domain_info.last_expand_tick
            (fun x => { x with expand_force0 := x.expand_force })
            (fun _ => rfl) (fun _ => rfl) ids hpF1 d.domain_id
          have e2 := proj_getDom_foldl_updDom domain_info.last_expand_tick
            (fun x => { x with expand_force := expand_force_of rmaxE x,
                               resist_force := resist_force_of rmR x })
            (fun _ => rfl) (fun _ => rfl) ids s1 d.domain_id
          rw [hhpF, e1, hhpF1, e2, hg, hexp]
        set vecS := sort_ids
          (fun a b => decide ((getDom hpF a).resist_force < (getDom hpF b).resist_force))
          (ids.filter fun i =>
            !(decide ((getDom hpF i).memsize ≤ (getDom hpF i).memsize_decr) ||
              is_shrink_soft_protected cfg (t + 1) (getDom hpF i))) with hvecS
        have hnotS : d.domain_id ∉ vecS := by
          rw [hvecS, mem_sort_ids]
          intro hmem
          have hmf := List.mem_filter.mp hmem
          have hprotF : is_shrink_soft_protected cfg (t + 1)
              (getDom hpF d.domain_id) = true := by
            unfold is_shrink_soft_protected
            rw [hlet, hpt]
            exact decide_eq_true (by omega)
          rw [hprotF] at hmf
          simp at hmf
        have hfin := rebalance_loop_untouched cfg rmaxE rmR d.domain_id hq fuel
          hpF s2 _ vecS hp2 hf2 hnotS hrun
        omega

/-- Domain of the C3 witness: expanded at tick 1000, no valid rate data
this tick. -/
def dom_c3w : domain_info :=
  { dom0 with valid_data := false, last_expand_tick := 1000,
              memsize := 4096 }

/-- Witness: shrink_protection at tick 1001 on a one-domain heap with
ample host free memory. -/
theorem shrink_protection_witness :
    (getDom (sched_reserved_soft cfg_c1 (1000 + 1) [dom_c3w] 1000000).1
        dom_c3w.domain_id).memsize = dom_c3w.memsize ∧
    (getDom [dom_c3w] dom_c3w.domain_id).memsize ≥ dom_c3w.memsize ∧
    is_shrink_soft_protected cfg_c1 (1000 + 2) dom_c3w = false :=
  shrink_protection cfg_c1 1000 3 [dom_c3w] 1000000 dom_c3w [dom_c3w] 1000000
    (by decide) (by decide) (List.mem_singleton_self _) rfl rfl rfl

end Membalance
